import Mathlib

/-! Verification of the UCIC smart-contract suite
(`qubic-hackathon/smart-contracts`: `UCTokenContract.cpp`,
`UCICDaoContract.cpp`, `OracleContract.cpp`, `include/types.h`).

The three contracts form a single deterministic state machine.  This file
embeds their state and every mutating operation as executable Lean
functions, modelling C++ unsigned machine integers as `Nat` reduced
modulo `2^64` (or `2^32` / `2^8`) exactly where the C++ arithmetic wraps,
and `std::map` / `std::unordered_map` as association lists with
first-occurrence lookup and in-place update (iteration order never
affects any of the verified statements: the only iterated quantity is a
modular sum, which is order independent, and the reward loop visits the
tier groups in the same fixed order as the source).  The ambient clock
`std::time(nullptr)` is passed in as an explicit `now` argument.
-/

set_option maxRecDepth 4000

namespace UCIC

/-! Section: Machine arithmetic (types.h uses uint8/uint32/uint64) -/

/-- Modulus of unsigned 64-bit arithmetic. -/
def U64 : Nat := 18446744073709551616

/-- Modulus of unsigned 32-bit arithmetic. -/
def U32 : Nat := 4294967296

/-- Wrapping 64-bit addition. -/
def add64 (a b : Nat) : Nat := (a + b) % U64

/-- Wrapping 64-bit subtraction (twos complement). -/
def sub64 (a b : Nat) : Nat := (a + (U64 - b % U64)) % U64

/-- Wrapping 64-bit multiplication. -/
def mul64 (a b : Nat) : Nat := (a * b) % U64

/-- Wrapping 32-bit addition. -/
def add32 (a b : Nat) : Nat := (a + b) % U32

/-! Section: Association lists standing in for `std::map` / `std::unordered_map` -/

/-- Model of `map.find(k)`: first occurrence lookup. -/
def alookup {κ α : Type} [DecidableEq κ] : List (κ × α) → κ → Option α
  | [], _ => none
  | (k', v) :: rest, k => if k = k' then some v else alookup rest k

/-- Model of `map[k] = v`: replace the binding of `k`, or append a fresh one. -/
def aupd {κ α : Type} [DecidableEq κ] : List (κ × α) → κ → α → List (κ × α)
  | [], k, v => [(k, v)]
  | (k', v') :: rest, k, v =>
      if k = k' then (k, v) :: rest else (k', v') :: aupd rest k v

/-! Section: Constants from include/types.h -/

def UC_TOKEN_SUPPLY : Nat := 1000

def UC_UNIT : Nat := 100000000

/-- Model of `UC_TO_UNITS(uc) = uc * UC_UNIT` over uint64. -/
def UC_TO_UNITS (uc : Nat) : Nat := mul64 uc UC_UNIT

def MONTHLY_REWARD_POOL : Nat := 30

def PROPOSAL_VOTING_PERIOD_HOURS : Nat := 72

inductive ContributorTier : Type
  | RECOGNIZED
  | SILVER
  | GOLD
  | PLATINUM
  | FOUNDER
deriving DecidableEq, Repr

/-- Model of `static_cast<uint8>(tier)`. -/
def tierIdx : ContributorTier → Nat
  | .RECOGNIZED => 0
  | .SILVER => 1
  | .GOLD => 2
  | .PLATINUM => 3
  | .FOUNDER => 4

/-- Model of `VOTING_POWER[5] = {1, 2, 3, 4, 5}`. -/
def VOTING_POWER : List Nat := [1, 2, 3, 4, 5]

/-- Model of `REWARD_DISTRIBUTION[5] = {20, 20, 30, 40, 100}`. -/
def REWARD_DISTRIBUTION : List Nat := [20, 20, 30, 40, 100]

/-- Model of `getTierVotingPower` from types.h. -/
def getTierVotingPower (tier : ContributorTier) : Nat :=
  VOTING_POWER.getD (tierIdx tier) 0

inductive VerificationLevel : Type
  | UNVERIFIED
  | BASIC
  | ADVANCED
  | AUDIT_COMPLETE
deriving DecidableEq, Repr

/-- The uint8 value behind the `VerificationLevel` enum (used by `<`, `>=`). -/
def levelIdx : VerificationLevel → Nat
  | .UNVERIFIED => 0
  | .BASIC => 1
  | .ADVANCED => 2
  | .AUDIT_COMPLETE => 3

inductive ScoreCategory : Type
  | CODE_QUALITY
  | DOCUMENTATION
  | TESTING
  | INNOVATION
  | COMMUNITY_IMPACT
deriving DecidableEq, Repr

/-- Model of `static_cast<int>(category)`. -/
def catIdx : ScoreCategory → Nat
  | .CODE_QUALITY => 0
  | .DOCUMENTATION => 1
  | .TESTING => 2
  | .INNOVATION => 3
  | .COMMUNITY_IMPACT => 4

inductive ProposalStatus : Type
  | PENDING
  | ACTIVE
  | PASSED
  | FAILED
  | EXECUTED
  | CANCELLED
deriving DecidableEq, Repr

inductive VoteType : Type
  | FOR
  | AGAINST
  | ABSTAIN
deriving DecidableEq, Repr

/-! Section: Data structures from include/types.h -/

structure Account : Type where
  address : String
  balance : Nat
  nonce : Nat
  createdAt : Nat
deriving DecidableEq, Repr

/-- Model of `Account()` — the default constructor used by `std::map::operator[]`. -/
def Account.default : Account :=
  { address := "", balance := 0, nonce := 0, createdAt := 0 }

structure CategoryScore : Type where
  category : ScoreCategory
  score : Nat
  evidence : String
  submittedAt : Nat
deriving DecidableEq, Repr

structure Contributor : Type where
  address : String
  tier : ContributorTier
  compositeScore : Nat
  pointsEarned : Nat
  rewardsReceived : Nat
  joinedAt : Nat
  lastRewardClaimAt : Nat
  auditTrail : List String
deriving DecidableEq, Repr

/-- Model of `Contributor()` default constructor. -/
def Contributor.default : Contributor :=
  { address := "", tier := .RECOGNIZED, compositeScore := 0, pointsEarned := 0,
    rewardsReceived := 0, joinedAt := 0, lastRewardClaimAt := 0, auditTrail := [] }

structure Proposal : Type where
  proposalId : Nat
  proposer : String
  title : String
  description : String
  status : ProposalStatus
  votesFor : Nat
  votesAgainst : Nat
  votesAbstain : Nat
  createdAt : Nat
  votingDeadline : Nat
  executionTime : Nat
deriving DecidableEq, Repr

/-- Model of `Proposal()` default constructor. -/
def Proposal.default : Proposal :=
  { proposalId := 0, proposer := "", title := "", description := "",
    status := .PENDING, votesFor := 0, votesAgainst := 0, votesAbstain := 0,
    createdAt := 0, votingDeadline := 0, executionTime := 0 }

structure Vote : Type where
  proposalId : Nat
  voter : String
  voteType : VoteType
  votingPower : Nat
  votedAt : Nat
deriving DecidableEq, Repr

/-! Section: UCTokenContract state (UCTokenContract.h private members; the
declared `governors` set is read and written by no member function of the
source and is not carried). -/

structure TokenState : Type where
  totalSupply : Nat
  treasuryBalance : Nat
  transactionCount : Nat
  treasuryAddress : String
  accounts : List (String × Account)
  allowances : List ((String × String) × Nat)
  transactionHistories : List (String × List String)
deriving DecidableEq, Repr

/-- Model of `UCTokenContract::UCTokenContract()`. -/
def TokenState.init (now : Nat) : TokenState :=
  let supply := mul64 UC_TOKEN_SUPPLY UC_UNIT
  { totalSupply := supply,
    treasuryBalance := supply,
    transactionCount := 0,
    treasuryAddress := "__TREASURY__",
    accounts := [("__TREASURY__",
      { address := "__TREASURY__", balance := supply, nonce := 0, createdAt := now })],
    allowances := [],
    transactionHistories := [] }

/-- Model of `UCTokenContract::balanceOf`. -/
def TokenState.balanceOf (s : TokenState) (account : String) : Nat :=
  match alookup s.accounts account with
  | some a => a.balance
  | none => 0

/-- Model of `UCTokenContract::allowance`. -/
def TokenState.allowance (s : TokenState) (owner spender : String) : Nat :=
  match alookup s.allowances (owner, spender) with
  | some v => v
  | none => 0

/-- Model of `UCTokenContract::validateAmount`: `amount > 0 && amount <= totalSupply`. -/
def TokenState.validateAmount (s : TokenState) (amount : Nat) : Bool :=
  decide (0 < amount ∧ amount ≤ s.totalSupply)

/-- Model of `UCTokenContract::validateAddress`: `!addr.empty() && addr.length() <= 256`. -/
def validateAddress (addr : String) : Bool :=
  decide (addr.length ≠ 0 ∧ addr.length ≤ 256)

/-- Model of `accounts[k]` of `std::map::operator[]`: existing entry or `Account()`. -/
def getAcc (m : List (String × Account)) (k : String) : Account :=
  (alookup m k).getD Account.default

/-- Model of `accounts[k] = f(accounts[k])` (read-modify-write through `operator[]`). -/
def mapAcc (m : List (String × Account)) (k : String) (f : Account → Account) :
    List (String × Account) :=
  aupd m k (f (getAcc m k))

/-- Model of `accounts[k].balance -= amount` (uint64 wrap). -/
def debit (m : List (String × Account)) (k : String) (amount : Nat) :
    List (String × Account) :=
  mapAcc m k (fun a => { a with balance := sub64 a.balance amount })

/-- Model of `accounts[k].balance += amount` (uint64 wrap). -/
def credit (m : List (String × Account)) (k : String) (amount : Nat) :
    List (String × Account) :=
  mapAcc m k (fun a => { a with balance := add64 a.balance amount })

/-- Model of `accounts[k].nonce++`. -/
def bumpNonce (m : List (String × Account)) (k : String) :
    List (String × Account) :=
  mapAcc m k (fun a => { a with nonce := add64 a.nonce 1 })

/-- Embeds the "register account if not exists" blocks: `Account(k)` with `createdAt = now`. -/
def ensureAccount (m : List (String × Account)) (k : String) (now : Nat) :
    List (String × Account) :=
  if (alookup m k).isNone then
    aupd m k { address := k, balance := 0, nonce := 0, createdAt := now }
  else m

/-- Model of `UCTokenContract::recordTransaction`. -/
def TokenState.recordTransaction (s : TokenState) (src dst txHash : String) :
    TokenState :=
  let h1 := aupd s.transactionHistories src
    ((alookup s.transactionHistories src).getD [] ++ [txHash])
  let h2 := aupd h1 dst ((alookup h1 dst).getD [] ++ [txHash])
  { s with transactionHistories := h2 }

/-- Model of `UCTokenContract::transfer` (treasury-sourced). -/
def TokenState.transfer (s : TokenState) (now : Nat) (recipient : String)
    (amount : Nat) : Bool × TokenState :=
  if !(validateAddress recipient && s.validateAmount amount) then (false, s)
  else
    match alookup s.accounts s.treasuryAddress with
    | none => (false, s)
    | some tre =>
      if tre.balance < amount then (false, s)
      else
        let acc1 := ensureAccount s.accounts recipient now
        let acc2 := debit acc1 s.treasuryAddress amount
        let acc3 := credit acc2 recipient amount
        let acc4 := bumpNonce acc3 s.treasuryAddress
        let txHash := "tx_" ++ toString s.transactionCount
        let s' := { s with accounts := acc4,
                           transactionCount := add64 s.transactionCount 1 }
        (true, s'.recordTransaction s.treasuryAddress recipient txHash)

/-- Model of `UCTokenContract::transferFrom` (note: the source reads the allowance of
`(owner, recipient)`, not `(owner, spender)`). -/
def TokenState.transferFrom (s : TokenState) (now : Nat)
    (owner recipient : String) (amount : Nat) : Bool × TokenState :=
  if !(validateAddress owner && validateAddress recipient &&
       s.validateAmount amount) then (false, s)
  else
    if s.allowance owner recipient < amount then (false, s)
    else
      match alookup s.accounts owner with
      | none => (false, s)
      | some ownerAcc =>
        if ownerAcc.balance < amount then (false, s)
        else
          let acc1 := ensureAccount s.accounts recipient now
          let acc2 := debit acc1 owner amount
          let acc3 := credit acc2 recipient amount
          let acc4 := bumpNonce acc3 owner
          let allow' := aupd s.allowances (owner, recipient)
            (sub64 (s.allowance owner recipient) amount)
          let txHash := "tx_" ++ toString s.transactionCount
          let s' := { s with accounts := acc4, allowances := allow',
                             transactionCount := add64 s.transactionCount 1 }
          (true, s'.recordTransaction owner recipient txHash)

/-- Model of `UCTokenContract::approve`. -/
def TokenState.approve (s : TokenState) (spender : String) (amount : Nat) :
    Bool × TokenState :=
  if !(validateAddress spender && s.validateAmount amount) then (false, s)
  else
    (true, { s with allowances := aupd s.allowances (s.treasuryAddress, spender) amount })

/-- Model of `UCTokenContract::increaseAllowance`. -/
def TokenState.increaseAllowance (s : TokenState) (spender : String)
    (addedValue : Nat) : Bool × TokenState :=
  if !(validateAddress spender && s.validateAmount addedValue) then (false, s)
  else
    let current := s.allowance s.treasuryAddress spender
    let allow' := aupd s.allowances (s.treasuryAddress, spender) (add64 current addedValue)
    (true, { s with allowances := allow' })

/-- Model of `UCTokenContract::decreaseAllowance`. -/
def TokenState.decreaseAllowance (s : TokenState) (spender : String)
    (subtractedValue : Nat) : Bool × TokenState :=
  if !(validateAddress spender && s.validateAmount subtractedValue) then (false, s)
  else
    let current := s.allowance s.treasuryAddress spender
    if current < subtractedValue then (false, s)
    else
      let allow' := aupd s.allowances (s.treasuryAddress, spender) (sub64 current subtractedValue)
      (true, { s with allowances := allow' })

/-- Model of `UCTokenContract::mint`. -/
def TokenState.mint (s : TokenState) (now : Nat) (account : String)
    (amount : Nat) : Bool × TokenState :=
  if !(validateAddress account && s.validateAmount amount) then (false, s)
  else
    let acc1 := ensureAccount s.accounts account now
    let acc2 := credit acc1 account amount
    let txHash := "mint_" ++ toString s.transactionCount
    let s' := { s with accounts := acc2,
                       totalSupply := add64 s.totalSupply amount,
                       transactionCount := add64 s.transactionCount 1 }
    (true, s'.recordTransaction "__MINT__" account txHash)

/-- Model of `UCTokenContract::burn`. -/
def TokenState.burn (s : TokenState) (account : String) (amount : Nat) :
    Bool × TokenState :=
  if !(validateAddress account && s.validateAmount amount) then (false, s)
  else
    match alookup s.accounts account with
    | none => (false, s)
    | some acct =>
      if acct.balance < amount then (false, s)
      else
        let acc2 := debit s.accounts account amount
        let txHash := "burn_" ++ toString s.transactionCount
        let s' := { s with accounts := acc2,
                           totalSupply := sub64 s.totalSupply amount,
                           transactionCount := add64 s.transactionCount 1 }
        (true, s'.recordTransaction account "__BURN__" txHash)

/-- Model of `UCTokenContract::distributeReward` (guards on the `treasuryBalance`
member, then mutates the balance of the treasury account unchecked). -/
def TokenState.distributeReward (s : TokenState) (now : Nat)
    (recipient : String) (amount : Nat) : Bool × TokenState :=
  if !(validateAddress recipient && s.validateAmount amount) ||
     decide (s.treasuryBalance < amount) then (false, s)
  else
    let acc1 := ensureAccount s.accounts recipient now
    let acc2 := debit acc1 s.treasuryAddress amount
    let acc3 := credit acc2 recipient amount
    let txHash := "reward_" ++ toString s.transactionCount
    let s' := { s with accounts := acc3,
                       treasuryBalance := sub64 s.treasuryBalance amount,
                       transactionCount := add64 s.transactionCount 1 }
    (true, s'.recordTransaction s.treasuryAddress recipient txHash)

/-- Model of `UCTokenContract::treasuryWithdraw`. -/
def TokenState.treasuryWithdraw (s : TokenState) (now : Nat)
    (recipient : String) (amount : Nat) : Bool × TokenState :=
  if !(validateAddress recipient && s.validateAmount amount) ||
     decide (s.treasuryBalance < amount) then (false, s)
  else
    let acc1 := debit s.accounts s.treasuryAddress amount
    let acc2 := ensureAccount acc1 recipient now
    let acc3 := credit acc2 recipient amount
    let txHash := "withdraw_" ++ toString s.transactionCount
    let s' := { s with accounts := acc3,
                       treasuryBalance := sub64 s.treasuryBalance amount,
                       transactionCount := add64 s.transactionCount 1 }
    (true, s'.recordTransaction s.treasuryAddress recipient txHash)

/-- Model of `UCTokenContract::treasuryDeposit`. -/
def TokenState.treasuryDeposit (s : TokenState) (contributor : String)
    (amount : Nat) : Bool × TokenState :=
  if !(validateAddress contributor && s.validateAmount amount) then (false, s)
  else
    match alookup s.accounts contributor with
    | none => (false, s)
    | some acct =>
      if acct.balance < amount then (false, s)
      else
        let acc1 := debit s.accounts contributor amount
        let acc2 := credit acc1 s.treasuryAddress amount
        let txHash := "deposit_" ++ toString s.transactionCount
        let s' := { s with accounts := acc2,
                           treasuryBalance := add64 s.treasuryBalance amount,
                           transactionCount := add64 s.transactionCount 1 }
        (true, s'.recordTransaction contributor s.treasuryAddress txHash)

/-- Model of `UCTokenContract::registerAccount`. -/
def TokenState.registerAccount (s : TokenState) (now : Nat)
    (account : String) : Bool × TokenState :=
  if !(validateAddress account) then (false, s)
  else
    match alookup s.accounts account with
    | some _ => (false, s)
    | none =>
      let acc' := aupd s.accounts account
        { address := account, balance := 0, nonce := 0, createdAt := now }
      (true, { s with accounts := acc' })

/-- Model of `UCTokenContract::verifyIntegrity`: uint64 running sum of all balances
compared with `totalSupply`. -/
def TokenState.verifyIntegrity (s : TokenState) : Bool :=
  decide (s.accounts.foldl (fun acc kv => add64 acc kv.2.balance) 0 = s.totalSupply)

/-! Section: Ledger operation sequences (claim C1/C2) -/

inductive LedgerOp : Type
  | transfer (now : Nat) (recipient : String) (amount : Nat)
  | transferFrom (now : Nat) (owner recipient : String) (amount : Nat)
  | approve (spender : String) (amount : Nat)
  | increaseAllowance (spender : String) (amount : Nat)
  | decreaseAllowance (spender : String) (amount : Nat)
  | mint (now : Nat) (account : String) (amount : Nat)
  | burn (account : String) (amount : Nat)
  | distributeReward (now : Nat) (recipient : String) (amount : Nat)
  | treasuryWithdraw (now : Nat) (recipient : String) (amount : Nat)
  | treasuryDeposit (contributor : String) (amount : Nat)
  | registerAccount (now : Nat) (account : String)
deriving DecidableEq, Repr

/-- Apply one mutating ledger operation (discarding the success flag). -/
def lstep (s : TokenState) : LedgerOp → TokenState
  | .transfer now r a => (s.transfer now r a).2
  | .transferFrom now o r a => (s.transferFrom now o r a).2
  | .approve sp a => (s.approve sp a).2
  | .increaseAllowance sp a => (s.increaseAllowance sp a).2
  | .decreaseAllowance sp a => (s.decreaseAllowance sp a).2
  | .mint now acct a => (s.mint now acct a).2
  | .burn acct a => (s.burn acct a).2
  | .distributeReward now r a => (s.distributeReward now r a).2
  | .treasuryWithdraw now r a => (s.treasuryWithdraw now r a).2
  | .treasuryDeposit c a => (s.treasuryDeposit c a).2
  | .registerAccount now acct => (s.registerAccount now acct).2

/-- Run a finite sequence of ledger operations. -/
def lrun (s : TokenState) (ops : List LedgerOp) : TokenState :=
  ops.foldl lstep s

/-! Section: UCICDaoContract state (UCICDaoContract.h private members).
The contract holds a `shared_ptr<UCTokenContract>`; the embedding inlines
that shared ledger as the `token` field. -/

structure DaoState : Type where
  token : TokenState
  contributors : List (String × Contributor)
  proposals : List (Nat × Proposal)
  votes : List ((Nat × String) × Vote)
  nextProposalId : Nat
  totalRewardsDistributed : Nat
  lastRewardDistribution : Nat
  governanceLog : List String
deriving DecidableEq, Repr

/-- Model of `UCICDaoContract::UCICDaoContract(tokenContract)`. -/
def DaoState.init (now : Nat) : DaoState :=
  { token := TokenState.init now, contributors := [], proposals := [],
    votes := [], nextProposalId := 1, totalRewardsDistributed := 0,
    lastRewardDistribution := 0, governanceLog := [] }

/-- Model of `UCICDaoContract::recordGovernanceAction` (pushes the hash only). -/
def DaoState.recordGovernanceAction (s : DaoState) (txHash : String) : DaoState :=
  { s with governanceLog := s.governanceLog ++ [txHash] }

/-- Model of `UCICDaoContract::registerContributor` (the referrer is accepted but
unused by the source body). -/
def DaoState.registerContributor (s : DaoState) (now : Nat)
    (address referrer : String) : Bool × DaoState :=
  match alookup s.contributors address with
  | some _ => (false, s)
  | none =>
    let contrib : Contributor :=
      { address := address, tier := .RECOGNIZED, compositeScore := 0,
        pointsEarned := 0, rewardsReceived := 0, joinedAt := now,
        lastRewardClaimAt := 0, auditTrail := [] }
    let s' := { s with contributors := aupd s.contributors address contrib }
    let txHash := "register_" ++ address ++ "_" ++ toString now
    (true, s'.recordGovernanceAction txHash)

/-- Model of `UCICDaoContract::isContributor`. -/
def DaoState.isContributor (s : DaoState) (address : String) : Bool :=
  (alookup s.contributors address).isSome

/-- Model of `UCICDaoContract::calculateCompositeScore`: integer weighted sum
(25/20/20/20/15) over 100. -/
def calculateCompositeScore (codeQuality documentation testing innovation
    community : Nat) : Nat :=
  (codeQuality * 25 + documentation * 20 + testing * 20 + innovation * 20 +
   community * 15) / 100

/-- Model of `UCICDaoContract::getTierThreshold`. -/
def getTierThreshold : ContributorTier → Nat
  | .RECOGNIZED => 0
  | .SILVER => 100
  | .GOLD => 250
  | .PLATINUM => 500
  | .FOUNDER => 1000

/-- Model of `UCICDaoContract::updateTier`: recompute the tier of `address` from its
current `compositeScore` (500/250/100 thresholds; FOUNDER never assigned). -/
def DaoState.updateTier (s : DaoState) (address : String) : DaoState :=
  match alookup s.contributors address with
  | none => s
  | some c =>
    let score := c.compositeScore
    let newTier : ContributorTier :=
      if getTierThreshold .PLATINUM ≤ score then .PLATINUM
      else if getTierThreshold .GOLD ≤ score then .GOLD
      else if getTierThreshold .SILVER ≤ score then .SILVER
      else .RECOGNIZED
    { s with contributors := aupd s.contributors address { c with tier := newTier } }

/-- The `values[5]` array fill of `UCICDaoContract::submitCompositeScore`:
`values[idx] = score.score` for each category score (uint8 slots; the
parallel `counts` array of the source is written but never read). -/
def fillValues (scores : List CategoryScore) : List Nat :=
  scores.foldl (fun v sc => v.set (catIdx sc.category) (sc.score % 256))
    [0, 0, 0, 0, 0]

/-- The trailing `it->second.auditTrail.push_back(txHash)` of
`UCICDaoContract::submitCompositeScore` (the iterator stays valid, so this
appends to the entry of `contributor`). -/
def auditAppend (s2 : DaoState) (contributor tx : String) : DaoState :=
  match alookup s2.contributors contributor with
  | none => s2
  | some c2 =>
    let c3 := { c2 with auditTrail := c2.auditTrail ++ [tx] }
    { s2 with contributors := aupd s2.contributors contributor c3 }

/-- Model of `UCICDaoContract::submitCompositeScore`. -/
def DaoState.submitCompositeScore (s : DaoState) (now : Nat)
    (contributor : String) (scores : List CategoryScore) : Bool × DaoState :=
  match alookup s.contributors contributor with
  | none => (false, s)
  | some c =>
    let v := fillValues scores
    let newScore := calculateCompositeScore (v.getD 0 0) (v.getD 1 0)
      (v.getD 2 0) (v.getD 3 0) (v.getD 4 0)
    let c' := { c with compositeScore := newScore,
                       pointsEarned := add64 c.pointsEarned newScore }
    let s1 := { s with contributors := aupd s.contributors contributor c' }
    let s2 := s1.updateTier contributor
    let txHash := "score_" ++ contributor ++ "_" ++ toString now
    (true, auditAppend s2 contributor txHash)

/-- Model of `UCICDaoContract::getCompositeScore`. -/
def DaoState.getCompositeScore (s : DaoState) (address : String) : Nat :=
  match alookup s.contributors address with
  | some c => c.compositeScore
  | none => 0

/-- Model of `UCICDaoContract::getTier`. -/
def DaoState.getTier (s : DaoState) (address : String) : ContributorTier :=
  match alookup s.contributors address with
  | some c => c.tier
  | none => .RECOGNIZED

/-- Model of `UCICDaoContract::getContributorsInTier` (map iteration order). -/
def DaoState.getContributorsInTier (s : DaoState) (tier : ContributorTier) :
    List String :=
  s.contributors.foldl
    (fun acc kv => if kv.2.tier = tier then acc ++ [kv.1] else acc) []

/-- Model of `UCICDaoContract::applyModuleBonus` (the module id is accepted but
unused by the source body). -/
def DaoState.applyModuleBonus (s : DaoState) (contributor : String)
    (moduleId bonusPoints : Nat) : Bool × DaoState :=
  match alookup s.contributors contributor with
  | none => (false, s)
  | some c =>
    let c' := { c with compositeScore := add32 c.compositeScore bonusPoints,
                       pointsEarned := add64 c.pointsEarned bonusPoints }
    let s1 := { s with contributors := aupd s.contributors contributor c' }
    (true, s1.updateTier contributor)

/-- Model of `UCICDaoContract::getVotingPower`. -/
def DaoState.getVotingPower (s : DaoState) (address : String) : Nat :=
  getTierVotingPower (s.getTier address)

/-- Model of `UCICDaoContract::createProposal`: returns the fresh id, or 0 on
failure.  The source checks only `isContributor(proposer)`; it never calls
`validateProposal`. -/
def DaoState.createProposal (s : DaoState) (now : Nat)
    (proposer title description : String) : Nat × DaoState :=
  if !(s.isContributor proposer) then (0, s)
  else
    let p : Proposal :=
      { proposalId := s.nextProposalId, proposer := proposer, title := title,
        description := description, status := .PENDING, votesFor := 0,
        votesAgainst := 0, votesAbstain := 0, createdAt := now,
        votingDeadline := add64 now (PROPOSAL_VOTING_PERIOD_HOURS * 3600),
        executionTime := 0 }
    let s' := { s with proposals := aupd s.proposals p.proposalId p,
                       nextProposalId := add32 s.nextProposalId 1 }
    let txHash := "proposal_" ++ toString p.proposalId
    (p.proposalId, s'.recordGovernanceAction txHash)

/-- Model of `UCICDaoContract::validateProposal` (defined in the source but never
invoked by `createProposal`). -/
def validateProposal (p : Proposal) : Bool :=
  decide (p.title ≠ "" ∧ p.description ≠ "")

/-- Model of `UCICDaoContract::hasVoted`. -/
def DaoState.hasVoted (s : DaoState) (proposalId : Nat) (voter : String) : Bool :=
  (alookup s.votes (proposalId, voter)).isSome

/-- Model of `UCICDaoContract::castVote`. -/
def DaoState.castVote (s : DaoState) (now : Nat) (proposalId : Nat)
    (voter : String) (voteType : VoteType) : Bool × DaoState :=
  match alookup s.proposals proposalId with
  | none => (false, s)
  | some prop =>
    if !(s.isContributor voter) then (false, s)
    else if (alookup s.votes (proposalId, voter)).isSome then (false, s)
    else
      let votingPower := s.getVotingPower voter
      let vote : Vote :=
        { proposalId := proposalId, voter := voter, voteType := voteType,
          votingPower := votingPower, votedAt := now }
      let prop' :=
        match voteType with
        | .FOR => { prop with votesFor := add64 prop.votesFor votingPower }
        | .AGAINST => { prop with votesAgainst := add64 prop.votesAgainst votingPower }
        | .ABSTAIN => { prop with votesAbstain := add64 prop.votesAbstain votingPower }
      (true, { s with votes := aupd s.votes (proposalId, voter) vote,
                      proposals := aupd s.proposals proposalId prop' })

/-- Model of `UCICDaoContract::executeProposal`. -/
def DaoState.executeProposal (s : DaoState) (now : Nat) (proposalId : Nat) :
    Bool × DaoState :=
  match alookup s.proposals proposalId with
  | none => (false, s)
  | some prop =>
    if prop.status ≠ .PASSED then (false, s)
    else
      let prop' := { prop with status := .EXECUTED, executionTime := now }
      let s' := { s with proposals := aupd s.proposals proposalId prop' }
      let txHash := "execute_" ++ toString proposalId
      (true, s'.recordGovernanceAction txHash)

/-- Model of `UCICDaoContract::getPendingReward`: tier share of the monthly pool. -/
def DaoState.getPendingReward (s : DaoState) (address : String) : Nat :=
  match alookup s.contributors address with
  | none => 0
  | some c =>
    let percentage := REWARD_DISTRIBUTION.getD (tierIdx c.tier) 0
    let monthlyPool := UC_TO_UNITS MONTHLY_REWARD_POOL
    mul64 monthlyPool percentage / 100

/-- Model of `UCICDaoContract::claimRewards`: credits `rewardsReceived` in the
registry only; the Ledger is never touched. -/
def DaoState.claimRewards (s : DaoState) (now : Nat) (contributor : String) :
    Nat × DaoState :=
  match alookup s.contributors contributor with
  | none => (0, s)
  | some c =>
    let pending := s.getPendingReward contributor
    if 0 < pending then
      let c' := { c with rewardsReceived := add64 c.rewardsReceived pending,
                         lastRewardClaimAt := now }
      (pending, { s with contributors := aupd s.contributors contributor c' })
    else (pending, s)

/-- One payment of the `distributeMonthlyRewards` inner loop: call the
Ledger function `distributeReward`; on success credit the per-contributor
`rewardsReceived`, stamp `lastRewardClaimAt`, and count it. -/
def payOne (acc : Nat × DaoState) (now timestamp : Nat) (address : String)
    (perContributorReward : Nat) : Nat × DaoState :=
  let s := acc.2
  let r := s.token.distributeReward now address perContributorReward
  let s1 := { s with token := r.2 }
  if r.1 then
    match alookup s1.contributors address with
    | some c =>
      let c' := { c with
        rewardsReceived := add64 c.rewardsReceived perContributorReward,
        lastRewardClaimAt := timestamp }
      (acc.1 + 1, { s1 with contributors := aupd s1.contributors address c' })
    | none => (acc.1, s1)
  else (acc.1, s1)

/-- One tier of the `distributeMonthlyRewards` outer loop. -/
def payTier (acc : Nat × DaoState) (now timestamp monthlyPool : Nat)
    (tier : ContributorTier) (members : List String) : Nat × DaoState :=
  if members.isEmpty then acc
  else
    let percentage := REWARD_DISTRIBUTION.getD (tierIdx tier) 0
    let tierReward := mul64 monthlyPool percentage / 100
    let perContributorReward := tierReward / members.length
    members.foldl (fun a addr => payOne a now timestamp addr perContributorReward) acc

/-- The two loops of `UCICDaoContract::distributeMonthlyRewards`: group the
contributors by tier, then walk the tiers from FOUNDER down to RECOGNIZED
paying each group an equal split of the tier percentage of the pool. -/
def runMonthly (s : DaoState) (now timestamp : Nat) : Nat × DaoState :=
  let monthlyPool := UC_TO_UNITS MONTHLY_REWARD_POOL
  let tiers : List ContributorTier :=
    [.FOUNDER, .PLATINUM, .GOLD, .SILVER, .RECOGNIZED]
  let groups := tiers.map (fun t => (t, s.getContributorsInTier t))
  groups.foldl (fun a tg => payTier a now timestamp monthlyPool tg.1 tg.2) (0, s)

/-- Model of `UCICDaoContract::distributeMonthlyRewards`. -/
def DaoState.distributeMonthlyRewards (s : DaoState) (now timestamp : Nat) :
    Nat × DaoState :=
  let acc := runMonthly s now timestamp
  let s2 := { acc.2 with
    totalRewardsDistributed := add64 acc.2.totalRewardsDistributed
      (UC_TO_UNITS MONTHLY_REWARD_POOL),
    lastRewardDistribution := timestamp }
  let txHash := "reward_dist_" ++ toString timestamp
  (acc.1, s2.recordGovernanceAction txHash)

/-! Section: DAO operation sequences (claims C4/C7/C10) -/

inductive DaoOp : Type
  | registerContributor (now : Nat) (address referrer : String)
  | submitCompositeScore (now : Nat) (contributor : String)
      (scores : List CategoryScore)
  | applyModuleBonus (contributor : String) (moduleId bonusPoints : Nat)
  | createProposal (now : Nat) (proposer title description : String)
  | castVote (now : Nat) (proposalId : Nat) (voter : String) (voteType : VoteType)
  | executeProposal (now : Nat) (proposalId : Nat)
  | distributeMonthlyRewards (now timestamp : Nat)
  | claimRewards (now : Nat) (contributor : String)
deriving DecidableEq, Repr

/-- Apply one mutating DAO operation (discarding the returned value). -/
def daoStep (s : DaoState) : DaoOp → DaoState
  | .registerContributor now a r => (s.registerContributor now a r).2
  | .submitCompositeScore now c scores => (s.submitCompositeScore now c scores).2
  | .applyModuleBonus c m b => (s.applyModuleBonus c m b).2
  | .createProposal now p t d => (s.createProposal now p t d).2
  | .castVote now p v t => (s.castVote now p v t).2
  | .executeProposal now p => (s.executeProposal now p).2
  | .distributeMonthlyRewards now ts => (s.distributeMonthlyRewards now ts).2
  | .claimRewards now c => (s.claimRewards now c).2

/-- Run a finite sequence of DAO operations. -/
def daoRun (s : DaoState) (ops : List DaoOp) : DaoState :=
  ops.foldl daoStep s

/-- Model of `n` successive `claimRewards` calls for the same contributor. -/
def claimN (s : DaoState) (now : Nat) (contributor : String) : Nat → DaoState
  | 0 => s
  | n + 1 => ((claimN s now contributor n).claimRewards now contributor).2

/-! Section: OracleContract state (OracleContract.h private members).
`Hash256` / `GitHash` byte arrays are lists of byte values.  The
`verificationChain` field inside `OracleSubmission` is never written by the
source (the separate `verificationChains` map holds the records), so it is
not carried. -/

structure VerificationRecord : Type where
  verifier : String
  approved : Bool
  notes : String
  verifiedAt : Nat
deriving DecidableEq, Repr

structure OracleSubmission : Type where
  submitter : String
  targetContributor : String
  scores : List CategoryScore
  gitSHA1 : List Nat
  dataHash : List Nat
  verificationLevel : VerificationLevel
  verifierCount : Nat
  submittedAt : Nat
deriving DecidableEq, Repr

/-- Model of `OracleSubmission()` default constructor. -/
def OracleSubmission.default : OracleSubmission :=
  { submitter := "", targetContributor := "", scores := [], gitSHA1 := [],
    dataHash := [], verificationLevel := .UNVERIFIED, verifierCount := 0,
    submittedAt := 0 }

structure OracleState : Type where
  dao : DaoState
  submissions : List (String × OracleSubmission)
  verificationChains : List (String × List VerificationRecord)
  merkleRoots : List (String × List Nat)
  gitRepositories : List (String × String)
  verifiers : List String
  challenges : List (String × Bool)
  auditLog : List String
  totalVerifications : Nat
  acceptedVerifications : Nat
deriving DecidableEq, Repr

/-- Model of `OracleContract::OracleContract(daoContract)`. -/
def OracleState.init (now : Nat) : OracleState :=
  { dao := DaoState.init now, submissions := [], verificationChains := [],
    merkleRoots := [], gitRepositories := [], verifiers := [],
    challenges := [], auditLog := [], totalVerifications := 0,
    acceptedVerifications := 0 }

/-- Model of `isValidScore`: `score <= MAX_CATEGORY_SCORE` (uint8 argument). -/
def isValidScore (score : Nat) : Bool := decide (score % 256 ≤ 100)

/-- Model of `OracleContract::validateScores`. -/
def validateScores (cq doc test innov comm : Nat) : Bool :=
  isValidScore cq && isValidScore doc && isValidScore test &&
  isValidScore innov && isValidScore comm

/-- Model of `OracleContract::isVerifier`. -/
def OracleState.isVerifier (s : OracleState) (address : String) : Bool :=
  s.verifiers.contains address

/-- Model of `OracleContract::recordAction`. -/
def OracleState.recordAction (s : OracleState) (now : Nat)
    (action actor : String) : OracleState :=
  { s with auditLog := s.auditLog ++ [action ++ "_" ++ actor ++ "_" ++ toString now] }

/-- Model of `OracleContract::computeMerkleTree`: XOR-fold the five category scores
into a 32-byte array, then XOR the first 20 bytes with `gitSHA1`. -/
def computeMerkleTree (scores : List CategoryScore) (gitSHA1 : List Nat) :
    List Nat :=
  let r1 := (scores.foldl
    (fun (acc : List Nat × Nat) sc =>
      (acc.1.set (acc.2 % 32) (Nat.xor (acc.1.getD (acc.2 % 32) 0) (sc.score % 256)),
       acc.2 + 1))
    (List.replicate 32 0, 0)).1
  (List.range 20).foldl
    (fun r i => r.set i (Nat.xor (r.getD i 0) (gitSHA1.getD i 0))) r1

/-- The submission id `"sub_" + contributor + "_" + std::to_string(time)`
generated by `OracleContract::submitScore`. -/
def subId (contributor : String) (now : Nat) : String :=
  "sub_" ++ contributor ++ "_" ++ toString now

/-- Model of `OracleContract::submitScore`: returns the fresh submission id, or the
empty string when a category score is out of range. -/
def OracleState.submitScore (s : OracleState) (now : Nat)
    (contributor : String) (codeQuality documentation testing innovation
    community : Nat) (gitRepository : String) (evidenceHash : List Nat) :
    String × OracleState :=
  if !(validateScores codeQuality documentation testing innovation community)
  then ("", s)
  else
    let scores : List CategoryScore :=
      [{ category := .CODE_QUALITY, score := codeQuality % 256,
         evidence := "Code Quality Review", submittedAt := now },
       { category := .DOCUMENTATION, score := documentation % 256,
         evidence := "Documentation Review", submittedAt := now },
       { category := .TESTING, score := testing % 256,
         evidence := "Testing Coverage", submittedAt := now },
       { category := .INNOVATION, score := innovation % 256,
         evidence := "Innovation Assessment", submittedAt := now },
       { category := .COMMUNITY_IMPACT, score := community % 256,
         evidence := "Community Impact", submittedAt := now }]
    let submission : OracleSubmission :=
      { submitter := contributor, targetContributor := contributor,
        scores := scores, gitSHA1 := List.replicate 20 0,
        dataHash := evidenceHash, verificationLevel := .UNVERIFIED,
        verifierCount := 0, submittedAt := now }
    let id := subId contributor now
    let root := computeMerkleTree submission.scores submission.gitSHA1
    let s3 := { s with
      submissions := aupd s.submissions id submission,
      merkleRoots := aupd s.merkleRoots id root,
      gitRepositories := if gitRepository ≠ "" then
          aupd s.gitRepositories contributor gitRepository
        else s.gitRepositories }
    (id, s3.recordAction now "submit_score" contributor)

/-- Model of `OracleContract::verifySubmission`: append a verification record, bump
the uint8 verifier count, and set the level from the NEW count and the
triggering vote (count ≥ 3 → AuditComplete/Basic, count ≥ 1 →
Advanced/Basic). -/
def OracleState.verifySubmission (s : OracleState) (now : Nat)
    (submissionId verifier : String) (approved : Bool) (notes : String) :
    Bool × OracleState :=
  match alookup s.submissions submissionId with
  | none => (false, s)
  | some submission =>
    if !(s.isVerifier verifier) then (false, s)
    else
      let record : VerificationRecord :=
        { verifier := verifier, approved := approved, notes := notes,
          verifiedAt := now }
      let chain' := (alookup s.verificationChains submissionId).getD [] ++ [record]
      let newCount := (submission.verifierCount + 1) % 256
      let newLevel : VerificationLevel :=
        if 3 ≤ newCount then (if approved then .AUDIT_COMPLETE else .BASIC)
        else if 1 ≤ newCount then (if approved then .ADVANCED else .BASIC)
        else submission.verificationLevel
      let submission' := { submission with verifierCount := newCount,
                                           verificationLevel := newLevel }
      let s1 := { s with
        verificationChains := aupd s.verificationChains submissionId chain',
        submissions := aupd s.submissions submissionId submission',
        acceptedVerifications :=
          if approved then add64 s.acceptedVerifications 1
          else s.acceptedVerifications,
        totalVerifications := add64 s.totalVerifications 1 }
      (true, s1.recordAction now "verify_submission" verifier)

/-- Model of `OracleContract::getVerificationStatus`. -/
def OracleState.getVerificationStatus (s : OracleState)
    (submissionId : String) : VerificationLevel :=
  match alookup s.submissions submissionId with
  | some submission => submission.verificationLevel
  | none => .UNVERIFIED

/-- Model of `OracleContract::getVerificationChain`. -/
def OracleState.getVerificationChain (s : OracleState)
    (submissionId : String) : List VerificationRecord :=
  (alookup s.verificationChains submissionId).getD []

/-- Model of `OracleContract::registerVerifier`. -/
def OracleState.registerVerifier (s : OracleState) (address : String) :
    Bool × OracleState :=
  if s.verifiers.contains address then (false, s)
  else (true, { s with verifiers := s.verifiers ++ [address] })

/-- Model of `OracleContract::removeVerifier`. -/
def OracleState.removeVerifier (s : OracleState) (address : String) :
    Bool × OracleState :=
  if s.verifiers.contains address then
    (true, { s with verifiers := s.verifiers.filter (fun a => a ≠ address) })
  else (false, s)

/-- Model of `OracleContract::linkGitRepository` (the commit SHA is accepted but
unused by the source body). -/
def OracleState.linkGitRepository (s : OracleState)
    (contributor repoUrl : String) (commitSha : List Nat) :
    Bool × OracleState :=
  (true, { s with gitRepositories := aupd s.gitRepositories contributor repoUrl })

/-- Model of `OracleContract::challengeVerification`. -/
def OracleState.challengeVerification (s : OracleState) (now : Nat)
    (submissionId challenger reason : String) : String × OracleState :=
  match alookup s.submissions submissionId with
  | none => ("", s)
  | some _ =>
    let challengeId := "challenge_" ++ submissionId ++ "_" ++ toString now
    let s1 := { s with challenges := aupd s.challenges challengeId false }
    (challengeId, s1.recordAction now "challenge_verification" challenger)

/-- Model of `OracleContract::resolveChallenge` (sets the resolved flag only; the
`accepted` outcome is discarded by the source). -/
def OracleState.resolveChallenge (s : OracleState) (challengeId : String)
    (accepted : Bool) : Bool × OracleState :=
  match alookup s.challenges challengeId with
  | none => (false, s)
  | some _ => (true, { s with challenges := aupd s.challenges challengeId true })

/-- Model of `OracleContract::registerWithDao`: forward the stored category scores to
the DAO whenever the level is at least Advanced; no forwarded flag is kept. -/
def OracleState.registerWithDao (s : OracleState) (now : Nat)
    (submissionId : String) : Bool × OracleState :=
  match alookup s.submissions submissionId with
  | none => (false, s)
  | some submission =>
    if levelIdx submission.verificationLevel < levelIdx .ADVANCED then (false, s)
    else
      let r := s.dao.submitCompositeScore now
        submission.targetContributor submission.scores
      (r.1, { s with dao := r.2 })

/-- Model of `OracleContract::isRegisteredWithDao`. -/
def OracleState.isRegisteredWithDao (s : OracleState)
    (submissionId : String) : Bool :=
  match alookup s.submissions submissionId with
  | some submission =>
      decide (levelIdx .ADVANCED ≤ levelIdx submission.verificationLevel)
  | none => false

/-! Section: Combined-system operation sequences (claims C3/C6/C8) -/

inductive SysOp : Type
  | submitScore (now : Nat) (contributor : String)
      (codeQuality documentation testing innovation community : Nat)
      (gitRepository : String) (evidenceHash : List Nat)
  | verifySubmission (now : Nat) (submissionId verifier : String)
      (approved : Bool) (notes : String)
  | registerVerifier (address : String)
  | removeVerifier (address : String)
  | linkGitRepository (contributor repoUrl : String) (commitSha : List Nat)
  | challengeVerification (now : Nat) (submissionId challenger reason : String)
  | resolveChallenge (challengeId : String) (accepted : Bool)
  | registerWithDao (now : Nat) (submissionId : String)
  | daoOp (op : DaoOp)
deriving DecidableEq, Repr

/-- Apply one mutating operation of the combined system. -/
def sysStep (s : OracleState) : SysOp → OracleState
  | .submitScore now c cq doc test innov comm repo h =>
      (s.submitScore now c cq doc test innov comm repo h).2
  | .verifySubmission now id v approved notes =>
      (s.verifySubmission now id v approved notes).2
  | .registerVerifier a => (s.registerVerifier a).2
  | .removeVerifier a => (s.removeVerifier a).2
  | .linkGitRepository c repo sha => (s.linkGitRepository c repo sha).2
  | .challengeVerification now id ch reason =>
      (s.challengeVerification now id ch reason).2
  | .resolveChallenge id accepted => (s.resolveChallenge id accepted).2
  | .registerWithDao now id => (s.registerWithDao now id).2
  | .daoOp op => { s with dao := daoStep s.dao op }

/-- Run a finite sequence of system operations. -/
def sysRun (s : OracleState) (ops : List SysOp) : OracleState :=
  ops.foldl sysStep s

/-- Model of `freshRun s ops`: along the run, no `submitScore` generates a submission
id (`"sub_" + contributor + "_" + time`) that is already present.  The
source derives ids from contributor and timestamp only, so a repeated pair
silently overwrites the stored submission while keeping the old
verification chain; runs without such collisions are the well-behaved ones. -/
def freshRun : OracleState → List SysOp → Bool
  | _, [] => true
  | s, op :: rest =>
    (match op with
     | .submitScore now c _ _ _ _ _ _ _ =>
         decide (alookup s.submissions (subId c now) = none)
     | _ => true) && freshRun (sysStep s op) rest

/-! Section: Verification-level bookkeeping used by claims C3 and C8 -/

/-- The records appended for a submission id. -/
def chainOf (s : OracleState) (id : String) : List VerificationRecord :=
  (alookup s.verificationChains id).getD []

/-- One `verifySubmission` update of (uint8 verifier count, level). -/
def stepLV (p : Nat × VerificationLevel) (r : VerificationRecord) :
    Nat × VerificationLevel :=
  let c := (p.1 + 1) % 256
  (c, if 3 ≤ c then (if r.approved then .AUDIT_COMPLETE else .BASIC)
      else if 1 ≤ c then (if r.approved then .ADVANCED else .BASIC)
      else p.2)

/-- (verifier count, level) determined by replaying a record chain. -/
def lvFold (chain : List VerificationRecord) : Nat × VerificationLevel :=
  chain.foldl stepLV (0, .UNVERIFIED)

/-- Whether the most recently appended record is an approval. -/
def lastApproved (chain : List VerificationRecord) : Bool :=
  (chain.getLast?.map VerificationRecord.approved).getD false

/-- The level that the quorum rule of the spec assigns to an unwrapped chain. -/
def levelOfChain (chain : List VerificationRecord) : VerificationLevel :=
  if chain.length = 0 then .UNVERIFIED
  else if 3 ≤ chain.length then
    (if lastApproved chain then .AUDIT_COMPLETE else .BASIC)
  else (if lastApproved chain then .ADVANCED else .BASIC)

/-- Rank of a verification level along
Unverified < Basic < Advanced < AuditComplete. -/
def levelRank : VerificationLevel → Nat
  | .UNVERIFIED => 0
  | .BASIC => 1
  | .ADVANCED => 2
  | .AUDIT_COMPLETE => 3

/-- The tier that the threshold rule of the spec derives from a score value
(highest threshold not exceeding the score, Founder excluded). -/
def tierFromScore (score : Nat) : ContributorTier :=
  if 500 ≤ score then .PLATINUM
  else if 250 ≤ score then .GOLD
  else if 100 ≤ score then .SILVER
  else .RECOGNIZED

/-- Plain (unwrapped) sum of all stored account balances. -/
def sumBal : List (String × Account) → Nat
  | [] => 0
  | kv :: rest => kv.2.balance + sumBal rest

/-- The ledger conservation invariant: the account balances sum to the
total supply modulo 2^64, and the stored supply is a uint64 value. -/
def LInv (s : TokenState) : Prop :=
  sumBal s.accounts % U64 = s.totalSupply ∧ s.totalSupply < U64

/-- The registry invariant behind claim C4: the tier of every stored contributor
is the threshold-derived tier of its current composite score. -/
def TierInv (s : DaoState) : Prop :=
  ∀ addr c, alookup s.contributors addr = some c →
    c.tier = tierFromScore c.compositeScore

/-- The oracle invariant behind claims C3 and C8: for each stored submission the
(uint8 verifier count, verification level) pair is the replay of its
verification chain, and ids without a submission have no chain. -/
def OracleInv (s : OracleState) : Prop :=
  (∀ id sub, alookup s.submissions id = some sub →
     (sub.verifierCount, sub.verificationLevel) = lvFold (chainOf s id))
  ∧ (∀ id, alookup s.submissions id = none → chainOf s id = [])

/-! Section: Concrete inputs used by the counterexamples and witnesses -/

/-- Five category scores of 60 each (composite score 60). -/
def sc60 : List CategoryScore :=
  [{ category := .CODE_QUALITY, score := 60, evidence := "", submittedAt := 0 },
   { category := .DOCUMENTATION, score := 60, evidence := "", submittedAt := 0 },
   { category := .TESTING, score := 60, evidence := "", submittedAt := 0 },
   { category := .INNOVATION, score := 60, evidence := "", submittedAt := 0 },
   { category := .COMMUNITY_IMPACT, score := 60, evidence := "", submittedAt := 0 }]

/-- C4 counterexample run: register "bob", submit composite 60 twice. -/
def c4state : DaoState :=
  daoRun (DaoState.init 0)
    [.registerContributor 0 "bob" "", .submitCompositeScore 1 "bob" sc60,
     .submitCompositeScore 2 "bob" sc60]

/-- C5 failing input: one contributor in each of the four reachable tiers. -/
def c5state : DaoState :=
  daoRun (DaoState.init 0)
    [.registerContributor 0 "r" "", .registerContributor 0 "s" "",
     .registerContributor 0 "g" "", .registerContributor 0 "p" "",
     .applyModuleBonus "s" 1 100, .applyModuleBonus "g" 1 250,
     .applyModuleBonus "p" 1 500]

/-- C6 failing input: a submission for registered contributor "bob",
verified once approvingly (level Advanced). -/
def c6state : OracleState :=
  sysRun (OracleState.init 0)
    [.daoOp (.registerContributor 0 "bob" ""), .registerVerifier "v",
     .submitScore 5 "bob" 60 60 60 60 60 "" [],
     .verifySubmission 6 "sub_bob_5" "v" true ""]

/-- C9 failing input: registered proposer "alice". -/
def c9state : DaoState :=
  daoRun (DaoState.init 0) [.registerContributor 0 "alice" ""]

/-- C7 witness run: contributor "carol" and proposal 1. -/
def c7state : DaoState :=
  daoRun (DaoState.init 0)
    [.registerContributor 0 "carol" "", .createProposal 1 "carol" "t" "d"]

/-- C3 counterexample run: three approving verifications reach
AuditComplete, then a colliding `submitScore` (same contributor and
timestamp, hence the same id `sub_a_1`) overwrites the submission while
the three-record chain survives. -/
def c3cexOps : List SysOp :=
  [.registerVerifier "v", .submitScore 1 "a" 80 80 80 80 80 "" [],
   .verifySubmission 2 "sub_a_1" "v" true "",
   .verifySubmission 3 "sub_a_1" "v" true "",
   .verifySubmission 4 "sub_a_1" "v" true "",
   .submitScore 1 "a" 80 80 80 80 80 "" []]

def c3cexState : OracleState := sysRun (OracleState.init 0) c3cexOps

/-- C3/C8 witness run: one submission, three approving verifications. -/
def c3witOps : List SysOp :=
  [.registerVerifier "v", .submitScore 1 "a" 80 80 80 80 80 "" [],
   .verifySubmission 2 "sub_a_1" "v" true "",
   .verifySubmission 3 "sub_a_1" "v" true "",
   .verifySubmission 4 "sub_a_1" "v" true ""]

def c3witState : OracleState := sysRun (OracleState.init 0) c3witOps

/-- C8 counterexample/witness run: one submission, one approving
verification (level Advanced). -/
def c8runOps : List SysOp :=
  [.registerVerifier "v", .submitScore 1 "a" 80 80 80 80 80 "" []]

def c8runState : OracleState := sysRun (OracleState.init 0) c8runOps

/-- C10 run: a single recognized contributor "r". -/
def c10state : DaoState :=
  daoRun (DaoState.init 0) [.registerContributor 0 "r" ""]

/-- The recorded `rewardsReceived` of contributor "r". -/
def rewardsOfR (s : DaoState) : Nat :=
  ((alookup s.contributors "r").getD Contributor.default).rewardsReceived

/-- The largest n with n * 600000000 < 2^64: one more RECOGNIZED-tier claim
wraps the uint64 `rewardsReceived` accumulator. -/
def c10n : Nat := 30744573456

/-- The tier-derived pending reward of `getPendingReward`. -/
def pendingOf (tier : ContributorTier) : Nat :=
  mul64 (UC_TO_UNITS MONTHLY_REWARD_POOL)
    (REWARD_DISTRIBUTION.getD (tierIdx tier) 0) / 100

/-- C2 failing input, first step: `transfer` drains the treasury account of
its whole initial balance (1000 UC), leaving `treasuryBalance` stale. -/
def c2state1 : TokenState :=
  ((TokenState.init 0).transfer 1 "alice" 100000000000).2

/-- The submission stored for id `sub_a_1` in the C3 witness run. -/
def c3witSub : OracleSubmission :=
  (alookup c3witState.submissions "sub_a_1").getD OracleSubmission.default

/-- The submission stored for id `sub_a_1` before the C8 witness call. -/
def c8sub : OracleSubmission :=
  (alookup c8runState.submissions "sub_a_1").getD OracleSubmission.default

/-- The C8 state after one approving verification (level Advanced). -/
def c8afterApprove : OracleState :=
  (c8runState.verifySubmission 2 "sub_a_1" "v" true "").2

/-- The submission stored for id `sub_a_1` after the C8 witness call. -/
def c8subAfter : OracleSubmission :=
  (alookup c8afterApprove.submissions "sub_a_1").getD OracleSubmission.default

/-- The contributor record of "r" right after registration. -/
def c10r : Contributor :=
  (alookup c10state.contributors "r").getD Contributor.default

end UCIC

namespace UCIC

/-! Section: Lemmas: the running uint64 balance sum and map updates -/

theorem sumBal_aupd (m : List (String × Account)) (k : String) (v : Account) :
    sumBal (aupd m k v) + (getAcc m k).balance = sumBal m + v.balance := by
  induction m with
  | nil => simp [aupd, sumBal, getAcc, alookup, Account.default]
  | cons kv t ih =>
    by_cases h : k = kv.1
    · simp [aupd, sumBal, getAcc, alookup, h]
      omega
    · simp only [aupd, sumBal, getAcc, alookup]
      rw [if_neg h, if_neg h]
      simp only [sumBal]
      have := ih
      simp only [getAcc] at this
      omega

theorem sumBal_mapAcc (m : List (String × Account)) (k : String)
    (f : Account → Account) :
    sumBal (mapAcc m k f) + (getAcc m k).balance
      = sumBal m + (f (getAcc m k)).balance := by
  exact sumBal_aupd m k (f (getAcc m k))

theorem sumBal_credit (m : List (String × Account)) (k : String) (a : Nat) :
    sumBal (credit m k a) % U64 = (sumBal m + a) % U64 := by
  unfold credit mapAcc
  have h := sumBal_aupd m k
    ((fun x => { x with balance := add64 x.balance a }) (getAcc m k))
  simp only [add64, U64] at h ⊢
  omega

theorem sumBal_debit (m : List (String × Account)) (k : String) (a : Nat) :
    (sumBal (debit m k a) + a) % U64 = sumBal m % U64 := by
  unfold debit mapAcc
  have h := sumBal_aupd m k
    ((fun x => { x with balance := sub64 x.balance a }) (getAcc m k))
  simp only [sub64, U64] at h ⊢
  omega

theorem sumBal_bumpNonce (m : List (String × Account)) (k : String) :
    sumBal (bumpNonce m k) = sumBal m := by
  unfold bumpNonce mapAcc
  have h := sumBal_aupd m k
    ((fun x => { x with nonce := add64 x.nonce 1 }) (getAcc m k))
  simp only at h ⊢
  omega

theorem sumBal_ensureAccount (m : List (String × Account)) (k : String)
    (now : Nat) : sumBal (ensureAccount m k now) = sumBal m := by
  unfold ensureAccount
  split
  next h =>
    have hb : (getAcc m k).balance = 0 := by
      unfold getAcc
      cases hx : alookup m k with
      | none => rfl
      | some v => rw [hx] at h; simp at h
    have hs := sumBal_aupd m k
      { address := k, balance := 0, nonce := 0, createdAt := now }
    simp only at hs
    omega
  next => rfl

theorem foldl_add64_eq (m : List (String × Account)) :
    ∀ a : Nat, m.foldl (fun acc kv => add64 acc kv.2.balance) (a % U64)
      = (a + sumBal m) % U64 := by
  induction m with
  | nil => intro a; simp [sumBal]
  | cons kv t ih =>
    intro a
    simp only [List.foldl, sumBal]
    have h1 : add64 (a % U64) kv.2.balance = (a + kv.2.balance) % U64 := by
      simp only [add64, U64]
      omega
    rw [h1, ih (a + kv.2.balance), Nat.add_assoc]

theorem verifyIntegrity_of_LInv (s : TokenState) (h : LInv s) :
    s.verifyIntegrity = true := by
  obtain ⟨h1, h2⟩ := h
  simp only [TokenState.verifyIntegrity, decide_eq_true_eq]
  have h0 : (0 : Nat) = 0 % U64 := by simp [U64]
  calc s.accounts.foldl (fun acc kv => add64 acc kv.2.balance) 0
      = s.accounts.foldl (fun acc kv => add64 acc kv.2.balance) (0 % U64) := by
        rw [← h0]
    _ = (0 + sumBal s.accounts) % U64 := foldl_add64_eq s.accounts 0
    _ = s.totalSupply := by rw [Nat.zero_add, h1]

/-! Section: Lemmas: every ledger operation preserves the conservation invariant -/

theorem recordTransaction_accounts (s : TokenState) (x y z : String) :
    (s.recordTransaction x y z).accounts = s.accounts := rfl

theorem recordTransaction_totalSupply (s : TokenState) (x y z : String) :
    (s.recordTransaction x y z).totalSupply = s.totalSupply := rfl

theorem LInv_transfer (s : TokenState) (now : Nat) (r : String) (a : Nat)
    (h : LInv s) : LInv (s.transfer now r a).2 := by
  unfold TokenState.transfer
  split
  · exact h
  · split
    · exact h
    · split
      · exact h
      · dsimp only
        refine ⟨?_, h.2⟩
        rw [recordTransaction_accounts, recordTransaction_totalSupply]
        dsimp only
        rw [sumBal_bumpNonce]
        have h3 := sumBal_credit
          (debit (ensureAccount s.accounts r now) s.treasuryAddress a) r a
        have h2 := sumBal_debit (ensureAccount s.accounts r now) s.treasuryAddress a
        have h1 := sumBal_ensureAccount s.accounts r now
        have h0 := h.1
        simp only [U64] at h3 h2 h1 h0 ⊢
        omega

theorem LInv_transferFrom (s : TokenState) (now : Nat) (o r : String) (a : Nat)
    (h : LInv s) : LInv (s.transferFrom now o r a).2 := by
  unfold TokenState.transferFrom
  split
  · exact h
  · split
    · exact h
    · split
      · exact h
      · split
        · exact h
        · dsimp only
          refine ⟨?_, h.2⟩
          rw [recordTransaction_accounts, recordTransaction_totalSupply]
          dsimp only
          rw [sumBal_bumpNonce]
          have h3 := sumBal_credit (debit (ensureAccount s.accounts r now) o a) r a
          have h2 := sumBal_debit (ensureAccount s.accounts r now) o a
          have h1 := sumBal_ensureAccount s.accounts r now
          have h0 := h.1
          simp only [U64] at h3 h2 h1 h0 ⊢
          omega

theorem LInv_approve (s : TokenState) (sp : String) (a : Nat)
    (h : LInv s) : LInv (s.approve sp a).2 := by
  unfold TokenState.approve
  split
  · exact h
  · exact ⟨h.1, h.2⟩

theorem LInv_increaseAllowance (s : TokenState) (sp : String) (a : Nat)
    (h : LInv s) : LInv (s.increaseAllowance sp a).2 := by
  unfold TokenState.increaseAllowance
  split
  · exact h
  · exact ⟨h.1, h.2⟩

theorem LInv_decreaseAllowance (s : TokenState) (sp : String) (a : Nat)
    (h : LInv s) : LInv (s.decreaseAllowance sp a).2 := by
  unfold TokenState.decreaseAllowance
  split
  · exact h
  · dsimp only
    split
    · exact h
    · exact ⟨h.1, h.2⟩

theorem LInv_mint (s : TokenState) (now : Nat) (acct : String) (a : Nat)
    (h : LInv s) : LInv (s.mint now acct a).2 := by
  unfold TokenState.mint
  split
  · exact h
  · dsimp only
    constructor
    · rw [recordTransaction_accounts, recordTransaction_totalSupply]
      dsimp only
      have h3 := sumBal_credit (ensureAccount s.accounts acct now) acct a
      have h1 := sumBal_ensureAccount s.accounts acct now
      have h0 := h.1
      simp only [add64, U64] at h3 h1 h0 ⊢
      omega
    · rw [recordTransaction_totalSupply]
      dsimp only
      simp only [add64, U64]
      omega

theorem LInv_burn (s : TokenState) (acct : String) (a : Nat)
    (h : LInv s) : LInv (s.burn acct a).2 := by
  unfold TokenState.burn
  split
  · exact h
  · split
    · exact h
    · split
      · exact h
      · dsimp only
        constructor
        · rw [recordTransaction_accounts, recordTransaction_totalSupply]
          dsimp only
          have h2 := sumBal_debit s.accounts acct a
          have h0 := h.1
          simp only [sub64, U64] at h2 h0 ⊢
          omega
        · rw [recordTransaction_totalSupply]
          dsimp only
          simp only [sub64, U64]
          omega

theorem LInv_distributeReward (s : TokenState) (now : Nat) (r : String)
    (a : Nat) (h : LInv s) : LInv (s.distributeReward now r a).2 := by
  unfold TokenState.distributeReward
  split
  · exact h
  · dsimp only
    refine ⟨?_, h.2⟩
    rw [recordTransaction_accounts, recordTransaction_totalSupply]
    dsimp only
    have h3 := sumBal_credit
      (debit (ensureAccount s.accounts r now) s.treasuryAddress a) r a
    have h2 := sumBal_debit (ensureAccount s.accounts r now) s.treasuryAddress a
    have h1 := sumBal_ensureAccount s.accounts r now
    have h0 := h.1
    simp only [U64] at h3 h2 h1 h0 ⊢
    omega

theorem LInv_treasuryWithdraw (s : TokenState) (now : Nat) (r : String)
    (a : Nat) (h : LInv s) : LInv (s.treasuryWithdraw now r a).2 := by
  unfold TokenState.treasuryWithdraw
  split
  · exact h
  · dsimp only
    refine ⟨?_, h.2⟩
    rw [recordTransaction_accounts, recordTransaction_totalSupply]
    dsimp only
    have h3 := sumBal_credit
      (ensureAccount (debit s.accounts s.treasuryAddress a) r now) r a
    have h1 := sumBal_ensureAccount (debit s.accounts s.treasuryAddress a) r now
    have h2 := sumBal_debit s.accounts s.treasuryAddress a
    have h0 := h.1
    simp only [U64] at h3 h2 h1 h0 ⊢
    omega

theorem LInv_treasuryDeposit (s : TokenState) (c : String) (a : Nat)
    (h : LInv s) : LInv (s.treasuryDeposit c a).2 := by
  unfold TokenState.treasuryDeposit
  split
  · exact h
  · split
    · exact h
    · split
      · exact h
      · dsimp only
        refine ⟨?_, h.2⟩
        rw [recordTransaction_accounts, recordTransaction_totalSupply]
        dsimp only
        have h3 := sumBal_credit (debit s.accounts c a) s.treasuryAddress a
        have h2 := sumBal_debit s.accounts c a
        have h0 := h.1
        simp only [U64] at h3 h2 h0 ⊢
        omega

theorem LInv_registerAccount (s : TokenState) (now : Nat) (acct : String)
    (h : LInv s) : LInv (s.registerAccount now acct).2 := by
  unfold TokenState.registerAccount
  split
  · exact h
  · split
    · exact h
    · next hnone =>
      dsimp only
      refine ⟨?_, h.2⟩
      have hb : (getAcc s.accounts acct).balance = 0 := by
        simp [getAcc, hnone, Account.default]
      have hs := sumBal_aupd s.accounts acct
        { address := acct, balance := 0, nonce := 0, createdAt := now }
      have h0 := h.1
      simp only at hs
      simp only [U64] at h0 ⊢
      omega

theorem LInv_lstep (s : TokenState) (op : LedgerOp) (h : LInv s) :
    LInv (lstep s op) := by
  cases op with
  | transfer now r a => exact LInv_transfer s now r a h
  | transferFrom now o r a => exact LInv_transferFrom s now o r a h
  | approve sp a => exact LInv_approve s sp a h
  | increaseAllowance sp a => exact LInv_increaseAllowance s sp a h
  | decreaseAllowance sp a => exact LInv_decreaseAllowance s sp a h
  | mint now acct a => exact LInv_mint s now acct a h
  | burn acct a => exact LInv_burn s acct a h
  | distributeReward now r a => exact LInv_distributeReward s now r a h
  | treasuryWithdraw now r a => exact LInv_treasuryWithdraw s now r a h
  | treasuryDeposit c a => exact LInv_treasuryDeposit s c a h
  | registerAccount now acct => exact LInv_registerAccount s now acct h

theorem LInv_lrun (ops : List LedgerOp) : ∀ s : TokenState, LInv s →
    LInv (lrun s ops) := by
  induction ops with
  | nil => intro s h; exact h
  | cons op rest ih =>
    intro s h
    exact ih (lstep s op) (LInv_lstep s op h)

theorem LInv_init (now : Nat) : LInv (TokenState.init now) := by
  constructor
  · simp [TokenState.init, sumBal, mul64, UC_TOKEN_SUPPLY, UC_UNIT, U64]
  · simp [TokenState.init, mul64, UC_TOKEN_SUPPLY, UC_UNIT, U64]

/-! Section: Lemmas: association-list lookup after update -/

theorem alookup_aupd_self {κ α : Type} [DecidableEq κ]
    (m : List (κ × α)) (k : κ) (v : α) : alookup (aupd m k v) k = some v := by
  induction m with
  | nil => simp [aupd, alookup]
  | cons kv t ih =>
    by_cases h : k = kv.1
    · simp [aupd, alookup, h]
    · simp only [aupd, alookup]
      rw [if_neg h]
      simp only [alookup]
      rw [if_neg h]
      exact ih

theorem alookup_aupd_ne {κ α : Type} [DecidableEq κ]
    (m : List (κ × α)) (k k' : κ) (v : α) (h : k' ≠ k) :
    alookup (aupd m k v) k' = alookup m k' := by
  induction m with
  | nil => simp [aupd, alookup, h]
  | cons kv t ih =>
    by_cases hk : k = kv.1
    · subst hk
      simp only [aupd, if_pos rfl, alookup]
      rw [if_neg h, if_neg h]
    · simp only [aupd]
      rw [if_neg hk]
      simp only [alookup]
      by_cases hk' : k' = kv.1
      · rw [if_pos hk', if_pos hk']
      · rw [if_neg hk', if_neg hk']
        exact ih

/-! Section: Lemmas: the registry tier invariant (claim C4) -/

theorem recordGovernanceAction_contributors (s : DaoState) (tx : String) :
    (s.recordGovernanceAction tx).contributors = s.contributors := rfl

theorem TierInv_of_contributors_eq (s s' : DaoState)
    (heq : s'.contributors = s.contributors) (h : TierInv s) : TierInv s' := by
  intro a c hc
  rw [heq] at hc
  exact h a c hc

theorem TierInv_updateTier (s : DaoState) (addr : String)
    (h : ∀ a c, a ≠ addr → alookup s.contributors a = some c →
      c.tier = tierFromScore c.compositeScore) :
    TierInv (s.updateTier addr) := by
  unfold DaoState.updateTier
  split
  next hnone =>
    intro a c hc
    by_cases ha : a = addr
    · subst ha; rw [hnone] at hc; exact absurd hc (by simp)
    · exact h a c ha hc
  next c0 hsome =>
    intro a c hc
    dsimp only at hc
    by_cases ha : a = addr
    · subst ha
      rw [alookup_aupd_self] at hc
      cases hc
      simp only [tierFromScore, getTierThreshold]
    · rw [alookup_aupd_ne _ _ _ _ ha] at hc
      exact h a c ha hc

theorem TierInv_registerContributor (s : DaoState) (now : Nat)
    (a r : String) (h : TierInv s) : TierInv (s.registerContributor now a r).2 := by
  unfold DaoState.registerContributor
  split
  · exact h
  · intro a' c hc
    rw [recordGovernanceAction_contributors] at hc
    dsimp only at hc
    by_cases ha : a' = a
    · subst ha
      rw [alookup_aupd_self] at hc
      cases hc
      simp [tierFromScore]
    · rw [alookup_aupd_ne _ _ _ _ ha] at hc
      exact h a' c hc

theorem TierInv_updateTier_of_aupd (s : DaoState) (contributor : String)
    (c' : Contributor) (h : TierInv s) :
    TierInv (DaoState.updateTier
      { s with contributors := aupd s.contributors contributor c' } contributor) := by
  apply TierInv_updateTier
  intro a c ha hc
  dsimp only at hc
  rw [alookup_aupd_ne _ _ _ _ ha] at hc
  exact h a c hc

theorem TierInv_auditAppend (s2 : DaoState) (contributor tx : String)
    (h : TierInv s2) : TierInv (auditAppend s2 contributor tx) := by
  unfold auditAppend
  split
  · exact h
  next c2 hsome2 =>
    intro a c hc
    dsimp only at hc
    by_cases ha : a = contributor
    · subst ha
      rw [alookup_aupd_self] at hc
      cases hc
      simpa using h _ _ hsome2
    · rw [alookup_aupd_ne _ _ _ _ ha] at hc
      exact h a c hc

theorem TierInv_submitCompositeScore (s : DaoState) (now : Nat)
    (contributor : String) (scores : List CategoryScore) (h : TierInv s) :
    TierInv (s.submitCompositeScore now contributor scores).2 := by
  unfold DaoState.submitCompositeScore
  split
  · exact h
  next c0 hsome =>
    dsimp only
    exact TierInv_auditAppend _ contributor _
      (TierInv_updateTier_of_aupd s contributor _ h)

theorem TierInv_applyModuleBonus (s : DaoState) (contributor : String)
    (moduleId bonus : Nat) (h : TierInv s) :
    TierInv (s.applyModuleBonus contributor moduleId bonus).2 := by
  unfold DaoState.applyModuleBonus
  split
  · exact h
  next c0 hsome =>
    dsimp only
    apply TierInv_updateTier
    intro a c ha hc
    dsimp only at hc
    rw [alookup_aupd_ne _ _ _ _ ha] at hc
    exact h a c hc

theorem createProposal_contributors (s : DaoState) (now : Nat)
    (p t d : String) : (s.createProposal now p t d).2.contributors = s.contributors := by
  unfold DaoState.createProposal
  split <;> rfl

theorem castVote_contributors (s : DaoState) (now p : Nat) (v : String)
    (T : VoteType) : (s.castVote now p v T).2.contributors = s.contributors := by
  unfold DaoState.castVote
  split
  · rfl
  · split
    · rfl
    · split
      · rfl
      · rfl

theorem executeProposal_contributors (s : DaoState) (now p : Nat) :
    (s.executeProposal now p).2.contributors = s.contributors := by
  unfold DaoState.executeProposal
  split
  · rfl
  · split
    · rfl
    · rfl

theorem TierInv_claimRewards (s : DaoState) (now : Nat) (c : String)
    (h : TierInv s) : TierInv (s.claimRewards now c).2 := by
  unfold DaoState.claimRewards
  split
  · exact h
  next c0 hsome =>
    dsimp only
    split
    · intro a ca hca
      dsimp only at hca
      by_cases ha : a = c
      · subst ha
        rw [alookup_aupd_self] at hca
        cases hca
        simpa using h _ _ hsome
      · rw [alookup_aupd_ne _ _ _ _ ha] at hca
        exact h a ca hca
    · exact h

theorem TierInv_payOne (acc : Nat × DaoState) (now ts : Nat) (addr : String)
    (per : Nat) (h : TierInv acc.2) : TierInv (payOne acc now ts addr per).2 := by
  unfold payOne
  dsimp only
  split
  · split
    next c0 hsome =>
      intro a ca hca
      dsimp only at hca
      by_cases ha : a = addr
      · subst ha
        rw [alookup_aupd_self] at hca
        cases hca
        simpa using h _ _ hsome
      · rw [alookup_aupd_ne _ _ _ _ ha] at hca
        exact h a ca hca
    next => exact h
  · exact h

theorem TierInv_foldl_payOne (l : List String) (now ts per : Nat) :
    ∀ acc : Nat × DaoState, TierInv acc.2 →
      TierInv (l.foldl (fun a addr => payOne a now ts addr per) acc).2 := by
  induction l with
  | nil => intro acc h; exact h
  | cons x t ih =>
    intro acc h
    exact ih _ (TierInv_payOne acc now ts x per h)

theorem TierInv_payTier (acc : Nat × DaoState) (now ts pool : Nat)
    (tier : ContributorTier) (members : List String) (h : TierInv acc.2) :
    TierInv (payTier acc now ts pool tier members).2 := by
  unfold payTier
  split
  · exact h
  · exact TierInv_foldl_payOne members now ts _ acc h

theorem TierInv_foldl_payTier (l : List (ContributorTier × List String))
    (now ts pool : Nat) :
    ∀ acc : Nat × DaoState, TierInv acc.2 →
      TierInv (l.foldl (fun a tg => payTier a now ts pool tg.1 tg.2) acc).2 := by
  induction l with
  | nil => intro acc h; exact h
  | cons x t ih =>
    intro acc h
    exact ih _ (TierInv_payTier acc now ts pool x.1 x.2 h)

theorem TierInv_runMonthly (s : DaoState) (now ts : Nat) (h : TierInv s) :
    TierInv (runMonthly s now ts).2 := by
  unfold runMonthly
  exact TierInv_foldl_payTier _ now ts _ (0, s) h

theorem distributeMonthlyRewards_contributors (s : DaoState) (now ts : Nat) :
    (s.distributeMonthlyRewards now ts).2.contributors
      = (runMonthly s now ts).2.contributors := by
  unfold DaoState.distributeMonthlyRewards
  dsimp only
  rw [recordGovernanceAction_contributors]

theorem TierInv_distributeMonthlyRewards (s : DaoState) (now ts : Nat)
    (h : TierInv s) : TierInv (s.distributeMonthlyRewards now ts).2 := by
  have hfold := TierInv_runMonthly s now ts h
  intro a c hc
  rw [distributeMonthlyRewards_contributors] at hc
  exact hfold a c hc

theorem TierInv_daoStep (s : DaoState) (op : DaoOp) (h : TierInv s) :
    TierInv (daoStep s op) := by
  cases op with
  | registerContributor now a r => exact TierInv_registerContributor s now a r h
  | submitCompositeScore now c scores =>
      exact TierInv_submitCompositeScore s now c scores h
  | applyModuleBonus c m b => exact TierInv_applyModuleBonus s c m b h
  | createProposal now p t d =>
      exact TierInv_of_contributors_eq s _ (createProposal_contributors s now p t d) h
  | castVote now p v T =>
      exact TierInv_of_contributors_eq s _ (castVote_contributors s now p v T) h
  | executeProposal now p =>
      exact TierInv_of_contributors_eq s _ (executeProposal_contributors s now p) h
  | distributeMonthlyRewards now ts => exact TierInv_distributeMonthlyRewards s now ts h
  | claimRewards now c => exact TierInv_claimRewards s now c h

theorem TierInv_daoRun (ops : List DaoOp) : ∀ s : DaoState, TierInv s →
    TierInv (daoRun s ops) := by
  induction ops with
  | nil => intro s h; exact h
  | cons op rest ih =>
    intro s h
    exact ih (daoStep s op) (TierInv_daoStep s op h)

theorem TierInv_daoInit (now : Nat) : TierInv (DaoState.init now) := by
  intro a c hc
  simp [DaoState.init, alookup] at hc

/-! Section: Lemmas: votes are never discarded (claim C7) -/

theorem updateTier_votes (s : DaoState) (a : String) :
    (s.updateTier a).votes = s.votes := by
  unfold DaoState.updateTier
  split <;> rfl

theorem auditAppend_votes (s : DaoState) (c tx : String) :
    (auditAppend s c tx).votes = s.votes := by
  unfold auditAppend
  split <;> rfl

theorem registerContributor_votes (s : DaoState) (now : Nat) (a r : String) :
    (s.registerContributor now a r).2.votes = s.votes := by
  unfold DaoState.registerContributor
  split <;> rfl

theorem submitCompositeScore_votes (s : DaoState) (now : Nat) (c : String)
    (sc : List CategoryScore) :
    (s.submitCompositeScore now c sc).2.votes = s.votes := by
  unfold DaoState.submitCompositeScore
  split
  · rfl
  · dsimp only
    rw [auditAppend_votes, updateTier_votes]

theorem applyModuleBonus_votes (s : DaoState) (c : String) (m b : Nat) :
    (s.applyModuleBonus c m b).2.votes = s.votes := by
  unfold DaoState.applyModuleBonus
  split
  · rfl
  · dsimp only
    rw [updateTier_votes]

theorem executeProposal_votes (s : DaoState) (now p : Nat) :
    (s.executeProposal now p).2.votes = s.votes := by
  unfold DaoState.executeProposal
  split
  · rfl
  · split <;> rfl

theorem claimRewards_votes (s : DaoState) (now : Nat) (c : String) :
    (s.claimRewards now c).2.votes = s.votes := by
  unfold DaoState.claimRewards
  split
  · rfl
  · dsimp only
    split <;> rfl

theorem payOne_votes (acc : Nat × DaoState) (now ts : Nat) (addr : String)
    (per : Nat) : (payOne acc now ts addr per).2.votes = acc.2.votes := by
  unfold payOne
  dsimp only
  split
  · split <;> rfl
  · rfl

theorem foldl_payOne_votes (l : List String) (now ts per : Nat) :
    ∀ acc : Nat × DaoState,
      ((l.foldl (fun a addr => payOne a now ts addr per) acc).2).votes
        = acc.2.votes := by
  induction l with
  | nil => intro acc; rfl
  | cons x t ih =>
    intro acc
    rw [List.foldl_cons, ih, payOne_votes]

theorem payTier_votes (acc : Nat × DaoState) (now ts pool : Nat)
    (tier : ContributorTier) (members : List String) :
    (payTier acc now ts pool tier members).2.votes = acc.2.votes := by
  unfold payTier
  split
  · rfl
  · rw [foldl_payOne_votes]

theorem foldl_payTier_votes (l : List (ContributorTier × List String))
    (now ts pool : Nat) :
    ∀ acc : Nat × DaoState,
      ((l.foldl (fun a tg => payTier a now ts pool tg.1 tg.2) acc).2).votes
        = acc.2.votes := by
  induction l with
  | nil => intro acc; rfl
  | cons x t ih =>
    intro acc
    rw [List.foldl_cons, ih, payTier_votes]

theorem recordGovernanceAction_votes (s : DaoState) (tx : String) :
    (s.recordGovernanceAction tx).votes = s.votes := rfl

theorem runMonthly_votes (s : DaoState) (now ts : Nat) :
    (runMonthly s now ts).2.votes = s.votes := by
  unfold runMonthly
  exact foldl_payTier_votes _ now ts _ (0, s)

theorem distributeMonthlyRewards_votes (s : DaoState) (now ts : Nat) :
    (s.distributeMonthlyRewards now ts).2.votes = s.votes := by
  unfold DaoState.distributeMonthlyRewards
  dsimp only
  rw [recordGovernanceAction_votes]
  exact runMonthly_votes s now ts

theorem createProposal_votes (s : DaoState) (now : Nat) (p t d : String) :
    (s.createProposal now p t d).2.votes = s.votes := by
  unfold DaoState.createProposal
  split <;> rfl

theorem hasVoted_daoStep (s : DaoState) (op : DaoOp) (p : Nat) (v : String)
    (h : s.hasVoted p v = true) : (daoStep s op).hasVoted p v = true := by
  cases op with
  | registerContributor now a r =>
      unfold DaoState.hasVoted at h ⊢
      rw [show (daoStep s (.registerContributor now a r)).votes = s.votes from
        registerContributor_votes s now a r]
      exact h
  | submitCompositeScore now c sc =>
      unfold DaoState.hasVoted at h ⊢
      rw [show (daoStep s (.submitCompositeScore now c sc)).votes = s.votes from
        submitCompositeScore_votes s now c sc]
      exact h
  | applyModuleBonus c m b =>
      unfold DaoState.hasVoted at h ⊢
      rw [show (daoStep s (.applyModuleBonus c m b)).votes = s.votes from
        applyModuleBonus_votes s c m b]
      exact h
  | createProposal now pr t d =>
      unfold DaoState.hasVoted at h ⊢
      rw [show (daoStep s (.createProposal now pr t d)).votes = s.votes from
        createProposal_votes s now pr t d]
      exact h
  | executeProposal now pr =>
      unfold DaoState.hasVoted at h ⊢
      rw [show (daoStep s (.executeProposal now pr)).votes = s.votes from
        executeProposal_votes s now pr]
      exact h
  | distributeMonthlyRewards now ts =>
      unfold DaoState.hasVoted at h ⊢
      rw [show (daoStep s (.distributeMonthlyRewards now ts)).votes = s.votes from
        distributeMonthlyRewards_votes s now ts]
      exact h
  | claimRewards now c =>
      unfold DaoState.hasVoted at h ⊢
      rw [show (daoStep s (.claimRewards now c)).votes = s.votes from
        claimRewards_votes s now c]
      exact h
  | castVote now pr vr T =>
      unfold DaoState.hasVoted at h ⊢
      show (alookup (s.castVote now pr vr T).2.votes (p, v)).isSome = true
      unfold DaoState.castVote
      split
      · exact h
      · split
        · exact h
        · split
          · exact h
          · dsimp only
            by_cases hk : (p, v) = (pr, vr)
            · rw [hk, alookup_aupd_self]
              rfl
            · rw [alookup_aupd_ne _ _ _ _ hk]
              exact h

theorem hasVoted_daoRun (ops : List DaoOp) (p : Nat) (v : String) :
    ∀ s : DaoState, s.hasVoted p v = true →
      (daoRun s ops).hasVoted p v = true := by
  induction ops with
  | nil => intro s h; exact h
  | cons op rest ih =>
    intro s h
    exact ih (daoStep s op) (hasVoted_daoStep s op p v h)

theorem castVote_success_hasVoted (s : DaoState) (now p : Nat) (v : String)
    (T : VoteType) (h : (s.castVote now p v T).1 = true) :
    (s.castVote now p v T).2.hasVoted p v = true := by
  cases hp : alookup s.proposals p with
  | none =>
    unfold DaoState.castVote at h
    rw [hp] at h
    simp at h
  | some prop =>
    unfold DaoState.castVote at h ⊢
    rw [hp] at h ⊢
    dsimp only at h ⊢
    by_cases hc : s.isContributor v
    · rw [if_neg (by simp [hc])] at h ⊢
      by_cases hv : (alookup s.votes (p, v)).isSome
      · rw [if_pos hv] at h
        simp at h
      · rw [if_neg hv] at h ⊢
        unfold DaoState.hasVoted
        dsimp only
        rw [alookup_aupd_self]
        rfl
    · rw [if_pos (by simp [hc])] at h
      simp at h

theorem castVote_of_hasVoted (s : DaoState) (now p : Nat) (v : String)
    (T : VoteType) (h : s.hasVoted p v = true) :
    s.castVote now p v T = (false, s) := by
  cases hp : alookup s.proposals p with
  | none =>
    unfold DaoState.castVote
    rw [hp]
  | some prop =>
    unfold DaoState.castVote
    rw [hp]
    dsimp only
    by_cases hc : s.isContributor v
    · rw [if_neg (by simp [hc])]
      rw [if_pos (by exact h)]
    · rw [if_pos (by simp [hc])]

/-! Section: Lemmas: `claimRewards` (claim C10) -/

theorem getPendingReward_eq (s : DaoState) (addr : String) (c : Contributor)
    (h : alookup s.contributors addr = some c) :
    s.getPendingReward addr = pendingOf c.tier := by
  unfold DaoState.getPendingReward pendingOf
  rw [h]

theorem pendingOf_pos (tier : ContributorTier) : 0 < pendingOf tier := by
  cases tier <;> decide

theorem claimRewards_spec (s : DaoState) (now : Nat) (addr : String)
    (c : Contributor) (h : alookup s.contributors addr = some c) :
    (s.claimRewards now addr).1 = pendingOf c.tier ∧
    (s.claimRewards now addr).2.token = s.token ∧
    alookup (s.claimRewards now addr).2.contributors addr =
      some { c with
        rewardsReceived := add64 c.rewardsReceived (pendingOf c.tier),
        lastRewardClaimAt := now } := by
  have hp := getPendingReward_eq s addr c h
  unfold DaoState.claimRewards
  rw [h]
  dsimp only
  rw [hp]
  rw [if_pos (pendingOf_pos c.tier)]
  refine ⟨rfl, rfl, ?_⟩
  dsimp only
  rw [alookup_aupd_self]

theorem claimN_lookup (s : DaoState) (now : Nat) (addr : String)
    (c : Contributor) (h : alookup s.contributors addr = some c) :
    ∀ n, 1 ≤ n →
      alookup (claimN s now addr n).contributors addr =
        some { c with
          rewardsReceived := (c.rewardsReceived + n * pendingOf c.tier) % U64,
          lastRewardClaimAt := now } := by
  intro n
  induction n with
  | zero => intro h0; exact absurd h0 (by decide)
  | succ n ih =>
    intro _
    by_cases hn : 1 ≤ n
    · have hprev := ih hn
      show alookup ((claimN s now addr n).claimRewards now addr).2.contributors addr = _
      have hspec := claimRewards_spec (claimN s now addr n) now addr _ hprev
      rw [hspec.2.2]
      have harith : add64 ((c.rewardsReceived + n * pendingOf c.tier) % U64)
          (pendingOf c.tier)
          = (c.rewardsReceived + (n + 1) * pendingOf c.tier) % U64 := by
        simp only [add64]
        rw [Nat.mod_add_mod]
        congr 1
        ring
      simp only [harith]
    · have hn0 : n = 0 := by omega
      subst hn0
      show alookup ((claimN s now addr 0).claimRewards now addr).2.contributors addr = _
      have hspec := claimRewards_spec s now addr c h
      show alookup (s.claimRewards now addr).2.contributors addr = _
      rw [hspec.2.2]
      have harith : add64 c.rewardsReceived (pendingOf c.tier)
          = (c.rewardsReceived + (0 + 1) * pendingOf c.tier) % U64 := by
        simp [add64]
      simp only [harith]

theorem rewardsOfR_def (s : DaoState) : rewardsOfR s =
    ((alookup s.contributors "r").getD Contributor.default).rewardsReceived :=
  rfl

theorem claimN_token (s : DaoState) (now : Nat) (addr : String) :
    ∀ n, (claimN s now addr n).token = s.token := by
  intro n
  induction n with
  | zero => rfl
  | succ n ih =>
    show ((claimN s now addr n).claimRewards now addr).2.token = s.token
    rw [← ih]
    generalize claimN s now addr n = t
    unfold DaoState.claimRewards
    split
    · rfl
    · dsimp only
      split <;> rfl

/-! Section: Lemmas: the oracle verification-level invariant (claims C3 and C8) -/

theorem recordAction_submissions (s : OracleState) (now : Nat)
    (a b : String) : (s.recordAction now a b).submissions = s.submissions := rfl

theorem recordAction_chains (s : OracleState) (now : Nat) (a b : String) :
    (s.recordAction now a b).verificationChains = s.verificationChains := rfl

theorem chainOf_congr (s s' : OracleState) (id : String)
    (h : s'.verificationChains = s.verificationChains) :
    chainOf s' id = chainOf s id := by
  unfold chainOf
  rw [h]

theorem OracleInv_of_eq (s s' : OracleState)
    (h1 : s'.submissions = s.submissions)
    (h2 : s'.verificationChains = s.verificationChains)
    (h : OracleInv s) : OracleInv s' := by
  constructor
  · intro id sub hsub
    rw [h1] at hsub
    rw [chainOf_congr s s' id h2]
    exact h.1 id sub hsub
  · intro id hid
    rw [h1] at hid
    rw [chainOf_congr s s' id h2]
    exact h.2 id hid

theorem registerVerifier_submissions (s : OracleState) (a : String) :
    (s.registerVerifier a).2.submissions = s.submissions := by
  unfold OracleState.registerVerifier
  split <;> rfl

theorem registerVerifier_chains (s : OracleState) (a : String) :
    (s.registerVerifier a).2.verificationChains = s.verificationChains := by
  unfold OracleState.registerVerifier
  split <;> rfl

theorem removeVerifier_submissions (s : OracleState) (a : String) :
    (s.removeVerifier a).2.submissions = s.submissions := by
  unfold OracleState.removeVerifier
  split <;> rfl

theorem removeVerifier_chains (s : OracleState) (a : String) :
    (s.removeVerifier a).2.verificationChains = s.verificationChains := by
  unfold OracleState.removeVerifier
  split <;> rfl

theorem challengeVerification_submissions (s : OracleState) (now : Nat)
    (id ch re : String) :
    (s.challengeVerification now id ch re).2.submissions = s.submissions := by
  unfold OracleState.challengeVerification
  split <;> rfl

theorem challengeVerification_chains (s : OracleState) (now : Nat)
    (id ch re : String) :
    (s.challengeVerification now id ch re).2.verificationChains
      = s.verificationChains := by
  unfold OracleState.challengeVerification
  split <;> rfl

theorem resolveChallenge_submissions (s : OracleState) (id : String)
    (accepted : Bool) :
    (s.resolveChallenge id accepted).2.submissions = s.submissions := by
  unfold OracleState.resolveChallenge
  split <;> rfl

theorem resolveChallenge_chains (s : OracleState) (id : String)
    (accepted : Bool) :
    (s.resolveChallenge id accepted).2.verificationChains
      = s.verificationChains := by
  unfold OracleState.resolveChallenge
  split <;> rfl

theorem registerWithDao_submissions (s : OracleState) (now : Nat)
    (id : String) :
    (s.registerWithDao now id).2.submissions = s.submissions := by
  unfold OracleState.registerWithDao
  split
  · rfl
  · split <;> rfl

theorem registerWithDao_chains (s : OracleState) (now : Nat) (id : String) :
    (s.registerWithDao now id).2.verificationChains = s.verificationChains := by
  unfold OracleState.registerWithDao
  split
  · rfl
  · split <;> rfl

theorem OracleInv_submitScore (s : OracleState) (now : Nat) (c : String)
    (cq dq tq iq cm : Nat) (repo : String) (eh : List Nat)
    (hfresh : alookup s.submissions (subId c now) = none)
    (h : OracleInv s) :
    OracleInv (s.submitScore now c cq dq tq iq cm repo eh).2 := by
  unfold OracleState.submitScore OracleState.recordAction
  split
  · exact h
  · dsimp only
    constructor
    · intro id sub hsub
      dsimp only at hsub
      unfold chainOf
      dsimp only
      by_cases hid : id = subId c now
      · subst hid
        rw [alookup_aupd_self] at hsub
        cases hsub
        have hempty := h.2 _ hfresh
        unfold chainOf at hempty
        rw [hempty]
        rfl
      · rw [alookup_aupd_ne _ _ _ _ hid] at hsub
        exact h.1 id sub hsub
    · intro id hid
      dsimp only at hid
      unfold chainOf
      dsimp only
      by_cases hid2 : id = subId c now
      · subst hid2
        rw [alookup_aupd_self] at hid
        exact absurd hid (by simp)
      · rw [alookup_aupd_ne _ _ _ _ hid2] at hid
        exact h.2 id hid

theorem lvFold_append (l : List VerificationRecord) (r : VerificationRecord) :
    lvFold (l ++ [r]) = stepLV (lvFold l) r := by
  unfold lvFold
  rw [List.foldl_append]
  rfl

theorem OracleInv_verifySubmission (s : OracleState) (now : Nat)
    (id0 verifier : String) (approved : Bool) (notes : String)
    (h : OracleInv s) :
    OracleInv (s.verifySubmission now id0 verifier approved notes).2 := by
  unfold OracleState.verifySubmission OracleState.recordAction
  split
  · exact h
  next submission hsub0 =>
    split
    · exact h
    · dsimp only
      constructor
      · intro id sub hsub
        dsimp only at hsub
        unfold chainOf
        dsimp only
        by_cases hid : id = id0
        · subst hid
          rw [alookup_aupd_self] at hsub
          cases hsub
          have hlv := h.1 id submission hsub0
          unfold chainOf at hlv
          rw [alookup_aupd_self, Option.getD_some, lvFold_append, ← hlv]
          rfl
        · rw [alookup_aupd_ne _ _ _ _ hid] at hsub
          rw [alookup_aupd_ne _ _ _ _ hid]
          exact h.1 id sub hsub
      · intro id hid
        dsimp only at hid
        unfold chainOf
        dsimp only
        by_cases hid2 : id = id0
        · subst hid2
          rw [alookup_aupd_self] at hid
          exact absurd hid (by simp)
        · rw [alookup_aupd_ne _ _ _ _ hid2] at hid
          rw [alookup_aupd_ne _ _ _ _ hid2]
          exact h.2 id hid

theorem OracleInv_sysStep (s : OracleState) (op : SysOp) (h : OracleInv s)
    (hguard : match op with
      | .submitScore now c _ _ _ _ _ _ _ =>
          alookup s.submissions (subId c now) = none
      | _ => True) : OracleInv (sysStep s op) := by
  cases op with
  | submitScore now c cq dq tq iq cm repo eh =>
      exact OracleInv_submitScore s now c cq dq tq iq cm repo eh hguard h
  | verifySubmission now id v approved notes =>
      exact OracleInv_verifySubmission s now id v approved notes h
  | registerVerifier a =>
      exact OracleInv_of_eq s _ (registerVerifier_submissions s a)
        (registerVerifier_chains s a) h
  | removeVerifier a =>
      exact OracleInv_of_eq s _ (removeVerifier_submissions s a)
        (removeVerifier_chains s a) h
  | linkGitRepository c repo sha => exact OracleInv_of_eq s _ rfl rfl h
  | challengeVerification now id ch re =>
      exact OracleInv_of_eq s _ (challengeVerification_submissions s now id ch re)
        (challengeVerification_chains s now id ch re) h
  | resolveChallenge id accepted =>
      exact OracleInv_of_eq s _ (resolveChallenge_submissions s id accepted)
        (resolveChallenge_chains s id accepted) h
  | registerWithDao now id =>
      exact OracleInv_of_eq s _ (registerWithDao_submissions s now id)
        (registerWithDao_chains s now id) h
  | daoOp op => exact OracleInv_of_eq s _ rfl rfl h

theorem OracleInv_sysRun (ops : List SysOp) : ∀ s : OracleState,
    OracleInv s → freshRun s ops = true → OracleInv (sysRun s ops) := by
  induction ops with
  | nil => intro s h _; exact h
  | cons op rest ih =>
    intro s h hf
    simp only [freshRun, Bool.and_eq_true] at hf
    refine ih (sysStep s op) (OracleInv_sysStep s op h ?_) hf.2
    have h1 := hf.1
    cases op with
    | submitScore now c cq dq tq iq cm repo eh => exact of_decide_eq_true h1
    | verifySubmission now id v approved notes => trivial
    | registerVerifier a => trivial
    | removeVerifier a => trivial
    | linkGitRepository c repo sha => trivial
    | challengeVerification now id ch re => trivial
    | resolveChallenge id accepted => trivial
    | registerWithDao now id => trivial
    | daoOp op => trivial

theorem OracleInv_init (t0 : Nat) : OracleInv (OracleState.init t0) := by
  constructor
  · intro id sub hsub
    simp [OracleState.init, alookup] at hsub
  · intro id hid
    rfl

theorem lastApproved_concat (l : List VerificationRecord)
    (r : VerificationRecord) : lastApproved (l ++ [r]) = r.approved := by
  unfold lastApproved
  rw [List.getLast?_concat]
  rfl

theorem lvFold_char (chain : List VerificationRecord) :
    chain.length ≤ 255 → lvFold chain = (chain.length, levelOfChain chain) := by
  induction chain using List.reverseRecOn with
  | nil => intro _; rfl
  | append_singleton l r ih =>
    intro hlen
    rw [List.length_append, List.length_singleton] at hlen
    have hl : l.length ≤ 255 := by omega
    rw [lvFold_append, ih hl]
    unfold stepLV levelOfChain
    dsimp only
    rw [lastApproved_concat, List.length_append, List.length_singleton]
    have hmod : (l.length + 1) % 256 = l.length + 1 :=
      Nat.mod_eq_of_lt (by omega)
    rw [hmod]
    rw [if_neg (by omega : ¬(l.length + 1 = 0))]
    by_cases h3 : 3 ≤ l.length + 1
    · rw [if_pos h3, if_pos h3]
    · rw [if_neg h3, if_neg h3, if_pos (by omega : 1 ≤ l.length + 1)]

theorem levelOfChain_AC (chain : List VerificationRecord) :
    levelOfChain chain = .AUDIT_COMPLETE ↔
      (3 ≤ chain.length ∧ lastApproved chain = true) := by
  unfold levelOfChain
  by_cases h0 : chain.length = 0
  · rw [if_pos h0]
    constructor
    · intro h; exact absurd h (by decide)
    · intro h; omega
  · rw [if_neg h0]
    by_cases h3 : 3 ≤ chain.length
    · rw [if_pos h3]
      by_cases ha : lastApproved chain = true
      · rw [if_pos ha]
        exact iff_of_true rfl ⟨h3, ha⟩
      · rw [if_neg ha]
        exact iff_of_false (by decide) (fun hc => ha hc.2)
    · rw [if_neg h3]
      by_cases ha : lastApproved chain = true
      · rw [if_pos ha]
        exact iff_of_false (by decide) (fun hc => h3 hc.1)
      · rw [if_neg ha]
        exact iff_of_false (by decide) (fun hc => h3 hc.1)

theorem levelRank_le_three (L : VerificationLevel) : levelRank L ≤ 3 := by
  cases L <;> decide

theorem levelRank_levelOfChain_lt3 (chain : List VerificationRecord)
    (h : chain.length < 3) : levelRank (levelOfChain chain) ≤ 2 := by
  unfold levelOfChain
  by_cases h0 : chain.length = 0
  · rw [if_pos h0]; decide
  · rw [if_neg h0, if_neg (by omega : ¬(3 ≤ chain.length))]
    by_cases ha : lastApproved chain = true
    · rw [if_pos ha]; decide
    · rw [if_neg ha]; decide

theorem quorum_of_inv (S : OracleState) (hInv : OracleInv S) (id : String)
    (sub : OracleSubmission) (hsub : alookup S.submissions id = some sub)
    (hlen : (chainOf S id).length ≤ 255) :
    (sub.verificationLevel = .AUDIT_COMPLETE ↔
      3 ≤ (chainOf S id).length ∧ lastApproved (chainOf S id) = true) := by
  have hpair := hInv.1 id sub hsub
  rw [lvFold_char _ hlen] at hpair
  have hlevel : sub.verificationLevel = levelOfChain (chainOf S id) :=
    congrArg Prod.snd hpair
  rw [hlevel]
  exact levelOfChain_AC _

theorem verify_approve_monotone (S : OracleState) (hInv : OracleInv S)
    (id verifier : String) (now : Nat) (notes : String)
    (sub sub' : OracleSubmission)
    (hsub : alookup S.submissions id = some sub)
    (hlen : (chainOf S id).length ≤ 254)
    (hsub' : alookup (S.verifySubmission now id verifier true notes).2.submissions
      id = some sub') :
    levelRank sub.verificationLevel ≤ levelRank sub'.verificationLevel := by
  have hpair := hInv.1 id sub hsub
  rw [lvFold_char _ (by omega)] at hpair
  have hcount : sub.verifierCount = (chainOf S id).length :=
    congrArg Prod.fst hpair
  have hlevel : sub.verificationLevel = levelOfChain (chainOf S id) :=
    congrArg Prod.snd hpair
  unfold OracleState.verifySubmission OracleState.recordAction at hsub'
  rw [hsub] at hsub'
  dsimp only at hsub'
  by_cases hv : S.isVerifier verifier
  · rw [if_neg (by simp [hv])] at hsub'
    dsimp only at hsub'
    rw [alookup_aupd_self] at hsub'
    cases hsub'
    dsimp only
    rw [hcount]
    have hmod : ((chainOf S id).length + 1) % 256 = (chainOf S id).length + 1 :=
      Nat.mod_eq_of_lt (by omega)
    rw [hmod]
    by_cases h3 : 3 ≤ (chainOf S id).length + 1
    · rw [if_pos h3]
      simp only [if_pos rfl]
      exact levelRank_le_three _
    · rw [if_neg h3, if_pos (by omega : 1 ≤ (chainOf S id).length + 1)]
      simp only [if_pos rfl]
      rw [hlevel]
      have := levelRank_levelOfChain_lt3 (chainOf S id) (by omega)
      calc levelRank (levelOfChain (chainOf S id)) ≤ 2 := this
        _ ≤ levelRank VerificationLevel.ADVANCED := by decide
  · rw [if_pos (by simp [hv])] at hsub'
    rw [hsub] at hsub'
    cases hsub'
    exact Nat.le_refl _

/-! Section: The claims -/

/-- C1: starting from the freshly constructed `UCTokenContract`, after every
finite sequence of mutating ledger operations (transfer, transferFrom,
approve, increaseAllowance, decreaseAllowance, mint, burn, distributeReward,
treasuryWithdraw, treasuryDeposit, registerAccount) the uint64 sum of all
account balances equals `totalSupply`, i.e. `verifyIntegrity()` returns
true (arithmetic wrapping modulo 2^64). -/
theorem C1_ledger_conservation (now : Nat) (ops : List LedgerOp) :
    (lrun (TokenState.init now) ops).verifyIntegrity = true :=
  verifyIntegrity_of_LInv _ (LInv_lrun ops _ (LInv_init now))

/-- C2: the claim "an operation that would drive a balance below zero
returns false and leaves the state unchanged" fails on the code.  After
`transfer("alice", 1000 UC)` drains the treasury account (the
`treasuryBalance` member is not updated by `transfer`),
`distributeReward("bob", 1)` passes its stale `treasuryBalance` guard,
returns true, and wraps the treasury account's uint64 balance to
2^64 - 1. -/
theorem C2_treasury_underflow :
    ((TokenState.init 0).transfer 1 "alice" 100000000000).1 = true ∧
    c2state1.balanceOf "__TREASURY__" = 0 ∧
    c2state1.treasuryBalance = 100000000000 ∧
    (c2state1.distributeReward 2 "bob" 1).1 = true ∧
    (c2state1.distributeReward 2 "bob" 1).2.balanceOf "__TREASURY__"
      = 18446744073709551615 := by decide

/-- C3 (counterexample): a submission at AUDIT_COMPLETE with three appended
approving records is overwritten by a colliding `submitScore` (same
contributor and timestamp produce the same id), after which the id has
three records whose most recent is an approval yet its level is
UNVERIFIED, refuting the claimed equivalence as stated. -/
theorem C3_counterexample :
    3 ≤ (chainOf c3cexState "sub_a_1").length ∧
    lastApproved (chainOf c3cexState "sub_a_1") = true ∧
    (alookup c3cexState.submissions "sub_a_1").isSome = true ∧
    c3cexState.getVerificationStatus "sub_a_1" ≠ .AUDIT_COMPLETE := by decide

/-- C3 (amended): along every run of system operations in which no
`submitScore` reuses an already present submission id, a submission with at
most 255 appended verification records is at AUDIT_COMPLETE if and only if
at least 3 records have been appended for it and the most recently appended
record is an approval. -/
theorem C3_quorum_gating (t0 : Nat) (ops : List SysOp) (id : String)
    (sub : OracleSubmission)
    (hfresh : freshRun (OracleState.init t0) ops = true)
    (hsub : alookup (sysRun (OracleState.init t0) ops).submissions id = some sub)
    (hlen : (chainOf (sysRun (OracleState.init t0) ops) id).length ≤ 255) :
    (sub.verificationLevel = .AUDIT_COMPLETE ↔
      3 ≤ (chainOf (sysRun (OracleState.init t0) ops) id).length ∧
      lastApproved (chainOf (sysRun (OracleState.init t0) ops) id) = true) :=
  quorum_of_inv _ (OracleInv_sysRun ops _ (OracleInv_init t0) hfresh)
    id sub hsub hlen

/-- C3 (witness): the amended quorum rule instantiated on a concrete run
with three approving verifications. -/
theorem C3_quorum_gating_witness :
    freshRun (OracleState.init 0) c3witOps = true ∧
    alookup (sysRun (OracleState.init 0) c3witOps).submissions "sub_a_1"
      = some c3witSub ∧
    (chainOf (sysRun (OracleState.init 0) c3witOps) "sub_a_1").length ≤ 255 ∧
    (c3witSub.verificationLevel = .AUDIT_COMPLETE ↔
      3 ≤ (chainOf (sysRun (OracleState.init 0) c3witOps) "sub_a_1").length ∧
      lastApproved (chainOf (sysRun (OracleState.init 0) c3witOps) "sub_a_1")
        = true) :=
  ⟨by decide, by decide, by decide,
   C3_quorum_gating 0 c3witOps "sub_a_1" c3witSub (by decide) (by decide)
     (by decide)⟩

/-- C4 (counterexample): after two submissions of composite score 60,
contributor "bob" has pointsEarned 120 — whose threshold-derived tier would
be SILVER — yet `getTier` returns RECOGNIZED, because `updateTier` derives
the tier from the current `compositeScore` (60), not from pointsEarned. -/
theorem C4_counterexample :
    ((alookup c4state.contributors "bob").getD Contributor.default).pointsEarned
      = 120 ∧
    tierFromScore
      ((alookup c4state.contributors "bob").getD Contributor.default).pointsEarned
      = .SILVER ∧
    c4state.getTier "bob" = .RECOGNIZED := by decide

/-- C4 (amended): after any sequence of DAO operations, the tier of every
contributor equals the threshold-derived tier (Recognized 0, Silver 100,
Gold 250, Platinum 500) of its current `compositeScore`. -/
theorem C4_tier_follows_composite (t0 : Nat) (ops : List DaoOp)
    (addr : String) :
    (daoRun (DaoState.init t0) ops).getTier addr =
      tierFromScore ((daoRun (DaoState.init t0) ops).getCompositeScore addr) := by
  have hinv := TierInv_daoRun ops (DaoState.init t0) (TierInv_daoInit t0)
  unfold DaoState.getTier DaoState.getCompositeScore
  cases hc : alookup (daoRun (DaoState.init t0) ops).contributors addr with
  | none =>
    dsimp only
    decide
  | some c =>
    dsimp only
    exact hinv addr c hc

/-- C5: the claim "one distributeMonthlyRewards call moves at most the
30 UC monthly pool out of the treasury" fails on the code: with one
contributor in each of the four reachable tiers, the per-tier percentages
20+20+30+40 = 110 move 33 UC (3.3e9 units) out of the treasury, 10% more
than the pool — contradicting the constants' own documentation. -/
theorem C5_reward_pool_exceeded :
    UC_TO_UNITS MONTHLY_REWARD_POOL = 3000000000 ∧
    c5state.token.balanceOf "__TREASURY__" = 100000000000 ∧
    (c5state.distributeMonthlyRewards 3 3).1 = 4 ∧
    (c5state.distributeMonthlyRewards 3 3).2.token.balanceOf "__TREASURY__"
      = 96700000000 ∧
    100000000000 - 96700000000 = 3300000000 ∧
    3000000000 < 3300000000 := by decide

/-- C6: the claim "a second registerWithDao does not add the submission's
composite score again" fails on the code: no forwarded flag is kept, so a
second call on the same ADVANCED submission succeeds again and doubles the
pointsEarned of the target contributor (60 after one call, 120 after two). -/
theorem C6_double_forward :
    (c6state.registerWithDao 7 "sub_bob_5").1 = true ∧
    ((alookup (c6state.registerWithDao 7 "sub_bob_5").2.dao.contributors
      "bob").getD Contributor.default).pointsEarned = 60 ∧
    ((c6state.registerWithDao 7 "sub_bob_5").2.registerWithDao 8
      "sub_bob_5").1 = true ∧
    ((alookup ((c6state.registerWithDao 7 "sub_bob_5").2.registerWithDao 8
      "sub_bob_5").2.dao.contributors "bob").getD
      Contributor.default).pointsEarned = 120 := by decide

/-- C7: once `castVote(p, v, T)` succeeds, every later `castVote(p, v, T2)`
— after any interleaved DAO operations — returns false and leaves the
state, and hence the three weighted tallies of the proposal, unchanged. -/
theorem C7_vote_uniqueness (s : DaoState) (now p : Nat) (v : String)
    (T : VoteType) (h : (s.castVote now p v T).1 = true) (ops : List DaoOp)
    (now2 : Nat) (T2 : VoteType) :
    ((daoRun (s.castVote now p v T).2 ops).castVote now2 p v T2).1 = false ∧
    ((daoRun (s.castVote now p v T).2 ops).castVote now2 p v T2).2 =
      daoRun (s.castVote now p v T).2 ops := by
  have h1 := castVote_success_hasVoted s now p v T h
  have h2 := hasVoted_daoRun ops p v _ h1
  have h3 := castVote_of_hasVoted (daoRun (s.castVote now p v T).2 ops)
    now2 p v T2 h2
  constructor
  · rw [h3]
  · rw [h3]

/-- C7 (witness): vote uniqueness instantiated on a concrete run where
"carol" votes FOR on proposal 1 and then tries to vote AGAINST. -/
theorem C7_vote_uniqueness_witness :
    (c7state.castVote 2 1 "carol" .FOR).1 = true ∧
    ((daoRun (c7state.castVote 2 1 "carol" .FOR).2
      [.claimRewards 9 "carol"]).castVote 3 1 "carol" .AGAINST).1 = false ∧
    ((daoRun (c7state.castVote 2 1 "carol" .FOR).2
      [.claimRewards 9 "carol"]).castVote 3 1 "carol" .AGAINST).2 =
      daoRun (c7state.castVote 2 1 "carol" .FOR).2 [.claimRewards 9 "carol"] :=
  ⟨by decide,
   (C7_vote_uniqueness c7state 2 1 "carol" .FOR (by decide)
     [.claimRewards 9 "carol"] 3 .AGAINST).1,
   (C7_vote_uniqueness c7state 2 1 "carol" .FOR (by decide)
     [.claimRewards 9 "carol"] 3 .AGAINST).2⟩

/-- C8 (counterexample): a successful rejecting verification lowers a
submission's level from ADVANCED back to BASIC, refuting "each successful
verifySubmission leaves the level greater than or equal to its previous
value" as stated. -/
theorem C8_counterexample :
    (c8runState.verifySubmission 2 "sub_a_1" "v" true "").1 = true ∧
    c8afterApprove.getVerificationStatus "sub_a_1" = .ADVANCED ∧
    (c8afterApprove.verifySubmission 3 "sub_a_1" "v" false "").1 = true ∧
    (c8afterApprove.verifySubmission 3 "sub_a_1" "v" false "").2.getVerificationStatus
      "sub_a_1" = .BASIC ∧
    levelRank .BASIC < levelRank .ADVANCED := by decide

/-- C8 (amended): along Unverified < Basic < Advanced < AuditComplete, a
`verifySubmission` call with an approving vote never lowers the level of a
submission that has at most 254 appended records (the uint8 verifier
counter would wrap past 255); rejecting votes may lower it. -/
theorem C8_approval_monotone (t0 : Nat) (ops : List SysOp)
    (id verifier : String) (now : Nat) (notes : String)
    (sub sub2 : OracleSubmission)
    (hfresh : freshRun (OracleState.init t0) ops = true)
    (hsub : alookup (sysRun (OracleState.init t0) ops).submissions id = some sub)
    (hlen : (chainOf (sysRun (OracleState.init t0) ops) id).length ≤ 254)
    (hsub2 : alookup ((sysRun (OracleState.init t0) ops).verifySubmission
      now id verifier true notes).2.submissions id = some sub2) :
    levelRank sub.verificationLevel ≤ levelRank sub2.verificationLevel :=
  verify_approve_monotone _ (OracleInv_sysRun ops _ (OracleInv_init t0) hfresh)
    id verifier now notes sub sub2 hsub hlen hsub2

/-- C8 (witness): the amended monotonicity instantiated on a concrete run:
an approving verification of a fresh submission raises UNVERIFIED to
ADVANCED. -/
theorem C8_approval_monotone_witness :
    freshRun (OracleState.init 0) c8runOps = true ∧
    alookup (sysRun (OracleState.init 0) c8runOps).submissions "sub_a_1"
      = some c8sub ∧
    (chainOf (sysRun (OracleState.init 0) c8runOps) "sub_a_1").length ≤ 254 ∧
    alookup ((sysRun (OracleState.init 0) c8runOps).verifySubmission 2
      "sub_a_1" "v" true "").2.submissions "sub_a_1" = some c8subAfter ∧
    levelRank c8sub.verificationLevel ≤ levelRank c8subAfter.verificationLevel :=
  ⟨by decide, by decide, by decide, by decide,
   C8_approval_monotone 0 c8runOps "sub_a_1" "v" 2 "" c8sub c8subAfter
     (by decide) (by decide) (by decide) (by decide)⟩

/-- C9: the claim "createProposal fails when the title or description is
empty" fails on the code: `validateProposal` exists but is never called, so
a registered proposer's empty-titled proposal is created with id 1, status
Pending and deadline createdAt + 72h — a proposal the contract's own
`validateProposal` rejects. -/
theorem C9_empty_proposal_accepted :
    c9state.isContributor "alice" = true ∧
    (c9state.createProposal 7 "alice" "" "").1 = 1 ∧
    (alookup (c9state.createProposal 7 "alice" "" "").2.proposals 1).isSome
      = true ∧
    ((alookup (c9state.createProposal 7 "alice" "" "").2.proposals 1).getD
      Proposal.default).title = "" ∧
    ((alookup (c9state.createProposal 7 "alice" "" "").2.proposals 1).getD
      Proposal.default).status = .PENDING ∧
    ((alookup (c9state.createProposal 7 "alice" "" "").2.proposals 1).getD
      Proposal.default).votingDeadline = 7 + 72 * 3600 ∧
    validateProposal ((alookup (c9state.createProposal 7 "alice" "" "").2.proposals
      1).getD Proposal.default) = false := by decide

/-- C10 (counterexample): `rewardsReceived` is a uint64 accumulator, so
repeated `claimRewards` calls do not increase it without bound: after
30744573457 claims at the RECOGNIZED tier the accumulator wraps modulo
2^64 and is smaller than after 30744573456 claims. -/
theorem C10_counterexample :
    rewardsOfR (claimN c10state 5 "r" (c10n + 1))
      < rewardsOfR (claimN c10state 5 "r" c10n) := by
  have hc : alookup c10state.contributors "r" = some
      { address := "r", tier := .RECOGNIZED, compositeScore := 0,
        pointsEarned := 0, rewardsReceived := 0, joinedAt := 0,
        lastRewardClaimAt := 0, auditTrail := [] } := by decide
  have h1 := claimN_lookup c10state 5 "r" _ hc (c10n + 1) (by decide)
  have h2 := claimN_lookup c10state 5 "r" _ hc c10n (by decide)
  rw [rewardsOfR_def, rewardsOfR_def, h1, h2]
  decide

/-- C10 (amended): every `claimRewards` call for a registered contributor
returns the tier-derived pending amount (always positive), adds it to the
contributor's `rewardsReceived` modulo 2^64, and leaves the entire Ledger
state untouched. -/
theorem C10_claim_rewards_frame (s : DaoState) (now : Nat) (addr : String)
    (c : Contributor) (h : alookup s.contributors addr = some c) :
    (s.claimRewards now addr).1 = s.getPendingReward addr ∧
    0 < (s.claimRewards now addr).1 ∧
    (s.claimRewards now addr).2.token = s.token ∧
    alookup (s.claimRewards now addr).2.contributors addr =
      some { c with
        rewardsReceived := add64 c.rewardsReceived (s.getPendingReward addr),
        lastRewardClaimAt := now } := by
  have hs := claimRewards_spec s now addr c h
  have hp := getPendingReward_eq s addr c h
  refine ⟨?_, ?_, hs.2.1, ?_⟩
  · rw [hs.1, hp]
  · rw [hs.1]
    exact pendingOf_pos c.tier
  · rw [hs.2.2, hp]

/-- C10 (witness): the claim-rewards frame property instantiated on the
registered RECOGNIZED contributor "r". -/
theorem C10_claim_rewards_frame_witness :
    alookup c10state.contributors "r" = some c10r ∧
    ((c10state.claimRewards 5 "r").1 = c10state.getPendingReward "r" ∧
     0 < (c10state.claimRewards 5 "r").1 ∧
     (c10state.claimRewards 5 "r").2.token = c10state.token ∧
     alookup (c10state.claimRewards 5 "r").2.contributors "r" =
       some { c10r with
         rewardsReceived := add64 c10r.rewardsReceived
           (c10state.getPendingReward "r"),
         lastRewardClaimAt := 5 }) :=
  ⟨by decide, C10_claim_rewards_frame c10state 5 "r" c10r (by decide)⟩

end UCIC
